import Mathlib

/-!
# The msgpack reader of the C++ platform client (`ignite/protocol/reader.h`)

A shallow embedding of `ignite::protocol::reader` and the properties of its read operations.

* A reader operation is a function from the reader state to a pair of an outcome
  (`Except ignite_error α`: a returned value or a thrown `ignite_error`) and the reader state
  after the call, so that the state left behind by a throwing call can be stated as well.
* Callbacks (`std::function`) that mutate what they capture are functions on an explicit captured
  state `σ`, returning an outcome and the new captured state.
* Bytes are natural numbers, a `bytes_view` is a `List Nat`.
* What `reader.h` only declares or includes (`reader.cpp`, `utils.h`, `ignite_error.h`, `msgpack.h`)
  is either a parameter of the operations or a definition marked as modelled from the specification.
-/

namespace ignite.protocol

/-! ## Data model -/

/-- Modelled from the spec: the tag of a staged value, one per variant of the StagedValue union of
§3 (`msgpack_object_type` of the external header msgpack.h). The source names only
`MSGPACK_OBJECT_MAP`. -/
inductive msgpack_object_type where
  | MSGPACK_OBJECT_NIL
  | MSGPACK_OBJECT_BOOLEAN
  | MSGPACK_OBJECT_INTEGER
  | MSGPACK_OBJECT_FLOAT
  | MSGPACK_OBJECT_STR
  | MSGPACK_OBJECT_BIN
  | MSGPACK_OBJECT_ARRAY
  | MSGPACK_OBJECT_MAP
  | MSGPACK_OBJECT_EXT
  deriving DecidableEq, Repr

mutual
/-- Modelled from the spec: the StagedValue union of §3 (`msgpack_object` of the external header
msgpack.h): nil, bool, integer (width, signedness, value), float (width, bit pattern), string and
binary (their bytes), array (`via.array`: the elements, `size` being their number), map
(`via.map`: the key/value pairs, `size` being their number) and extension (type code, bytes). -/
inductive msgpack_object where
  | nil
  | boolean (b : Bool)
  | integer (width : Nat) (signed : Bool) (value : Int)
  | float (width : Nat) (bits : Nat)
  | str (bytes : List Nat)
  | bin (bytes : List Nat)
  | array (ptr : List msgpack_object)
  | map (ptr : List msgpack_object_kv)
  | ext (type_code : Int) (bytes : List Nat)
/-- Modelled from the spec: a key/value pair of a staged map (`msgpack_object_kv` of msgpack.h,
with the fields `key` and `val` the source reads). -/
inductive msgpack_object_kv where
  | mk (key : msgpack_object) (val : msgpack_object)
end

/-- Field `key` of a `msgpack_object_kv`. -/
def msgpack_object_kv.key : msgpack_object_kv → msgpack_object
  | .mk k _ => k

/-- Field `val` of a `msgpack_object_kv`. -/
def msgpack_object_kv.val : msgpack_object_kv → msgpack_object
  | .mk _ v => v

/-- Field `type` of a `msgpack_object`. -/
def msgpack_object.type : msgpack_object → msgpack_object_type
  | .nil => .MSGPACK_OBJECT_NIL
  | .boolean _ => .MSGPACK_OBJECT_BOOLEAN
  | .integer _ _ _ => .MSGPACK_OBJECT_INTEGER
  | .float _ _ => .MSGPACK_OBJECT_FLOAT
  | .str _ => .MSGPACK_OBJECT_STR
  | .bin _ => .MSGPACK_OBJECT_BIN
  | .array _ => .MSGPACK_OBJECT_ARRAY
  | .map _ => .MSGPACK_OBJECT_MAP
  | .ext _ _ => .MSGPACK_OBJECT_EXT

/-- The union member `via.map` (`ptr` with its `size` entries); meaningful when `type` is
`MSGPACK_OBJECT_MAP`. -/
def msgpack_object.via_map : msgpack_object → List msgpack_object_kv
  | .map ptr => ptr
  | _ => []

/-- The union member `via.array` (`ptr` with its `size` entries); meaningful when `type` is
`MSGPACK_OBJECT_ARRAY`. -/
def msgpack_object.via_array : msgpack_object → List msgpack_object
  | .array ptr => ptr
  | _ => []

/-- Modelled from the spec: the error taxonomy of §7. -/
inductive error_class where
  | StreamExhausted
  | TypeMismatch
  | MalformedStream
  | NumericOverflow
  deriving DecidableEq, Repr

/-- Modelled from the spec: `ignite_error` (ignite_error.h is not among the sources). The source
builds one from a message; `cls` is the class of §7 that the error belongs to. -/
structure ignite_error where
  cls : error_class
  message : String
  deriving DecidableEq, Repr

/-- The error `ignite_error("No more data in stream")` of `check_data_in_stream`: the
StreamExhausted of §7 ("a read was attempted with no staged value remaining"). -/
def StreamExhausted : ignite_error :=
  ⟨.StreamExhausted, "No more data in stream"⟩

/-- The error `ignite_error("The value in stream is not a Map")` of `read_map_size`: a
TypeMismatch of §7 (§4.4: "requires staged tag is Map; fails with TypeMismatch otherwise"). -/
def NotAMap : ignite_error :=
  ⟨.TypeMismatch, "The value in stream is not a Map"⟩

/-- Modelled from the spec: the external value-tag parser of §2: "given a byte view and offset,
parses exactly one self-describing value and returns its tag/payload plus next-offset; fails if
bytes are truncated or the tag is unrecognized". `none` is failure. It is a parameter of every
operation that moves the cursor. -/
abbrev value_parse := List Nat → Nat → Option (msgpack_object × Nat)

/-- Modelled from the spec: the status of §3/§4.1 (ok, exhausted, malformed). -/
inductive status where
  | ok
  | exhausted
  | malformed
  deriving DecidableEq, Repr

/-- Modelled from the spec: how a status is held in `m_move_res` ("Result of the last move
operation", a `msgpack_unpack_return` of msgpack.h). The source inspects only its sign
(`m_move_res < 0` is "no data in stream"), so ok is a non-negative code and the two failed
statuses are negative codes. -/
def status.code : status → Int
  | .ok => 0
  | .exhausted => -1
  | .malformed => -2

/-- The private fields of `reader`. `m_current_val` is the `data` of the `msgpack_unpacked`. -/
structure reader where
  m_buffer : List Nat
  m_current_val : msgpack_object
  m_move_res : Int
  m_offset_next : Nat
  m_offset : Nat

/-- An operation outcome together with the reader state after the call. -/
abbrev outcome (α : Type) := Except ignite_error α × reader

/-- Method `position`: `return m_offset`. -/
def reader.position (r : reader) : Nat :=
  r.m_offset

/-- Method `check_data_in_stream`: throws `ignite_error("No more data in stream")` when
`m_move_res < 0`. -/
def reader.check_data_in_stream (r : reader) : Except ignite_error Unit :=
  if r.m_move_res < 0 then .error StreamExhausted else .ok ()

/-- Modelled from the spec: `stage_if_needed` of §4.1, run on a cursor that has just moved:
"invokes the value-tag parser at current_offset. On success, records the StagedValue and
next_offset. On failure (truncated/invalid tag), sets status to malformed." -/
def reader.stage (P : value_parse) (r : reader) : reader :=
  match P r.m_buffer r.m_offset with
  | some (v, n) => { r with m_current_val := v, m_offset_next := n }
  | none => { r with m_move_res := status.malformed.code }

/-- Modelled from the spec: the method `next` ("Move to the next value"), which reader.h declares
and reader.cpp defines. It is `advance` of §4.1 followed by the staging of the new value, which
the source does eagerly (every read uses `m_current_val` as it stands): "Sets current_offset =
next_offset; marks cursor stale; if current_offset == buffer.length, sets status to exhausted;
otherwise status remains" what it was; then, by §3 ("once malformed or stream_exhausted is set, no
further staging is attempted"), the value at the new offset is staged only when the status is ok. -/
def reader.next (P : value_parse) (r : reader) : reader :=
  let r1 : reader := { r with m_offset := r.m_offset_next }
  let r2 : reader :=
    if r1.m_offset = r1.m_buffer.length then { r1 with m_move_res := status.exhausted.code } else r1
  if r2.m_move_res < 0 then r2 else r2.stage P

/-- Modelled from the spec: the constructor `reader(bytes_view buffer)`, which reader.h declares
and reader.cpp defines; `construct` of §4.1: "binds the view, stages the first value (offset 0)
eagerly or lazily, initializes status to ok if the buffer is non-empty, else exhausted". Staging
is eager, as for `next`; before it the current value is the nil object. -/
def reader.construct (P : value_parse) (buffer : List Nat) : reader :=
  let r0 : reader :=
    { m_buffer := buffer
      m_current_val := .nil
      m_move_res := if buffer.length = 0 then status.exhausted.code else status.ok.code
      m_offset_next := 0
      m_offset := 0 }
  if r0.m_move_res < 0 then r0 else r0.stage P

/-- Method `skip`: `next()`. -/
def reader.skip (P : value_parse) (r : reader) : outcome Unit :=
  (.ok (), r.next P)

/-- Method `read_object<T>`; `unpack_object` is `unpack_object<T>` of utils.h.
`check_data_in_stream(); auto res = unpack_object<T>(m_current_val.data); next(); return res;` -/
def reader.read_object {T : Type} (P : value_parse)
    (unpack_object : msgpack_object → Except ignite_error T) (r : reader) : outcome T :=
  match r.check_data_in_stream with
  | .error e => (.error e, r)
  | .ok _ =>
    match unpack_object r.m_current_val with
    | .error e => (.error e, r)
    | .ok res => (.ok res, r.next P)

/-- Method `try_read_object<T>`; `try_unpack_object` is `try_unpack_object<T>` of utils.h, which
returns an optional value or throws.
`check_data_in_stream(); auto res = try_unpack_object<T>(m_current_val.data); if (res) next();
return res;` -/
def reader.try_read_object {T : Type} (P : value_parse)
    (try_unpack_object : msgpack_object → Except ignite_error (Option T)) (r : reader) :
    outcome (Option T) :=
  match r.check_data_in_stream with
  | .error e => (.error e, r)
  | .ok _ =>
    match try_unpack_object r.m_current_val with
    | .error e => (.error e, r)
    | .ok (some res) => (.ok (some res), r.next P)
    | .ok none => (.ok none, r)

/-- Modelled from the spec: the method `try_read_nil`, which reader.h declares ("If the next value
is Nil, read it and move reader to the next position") and reader.cpp defines. §4.2: "returns true
and advances if the staged tag is nil; otherwise returns false and does not advance"; §7:
"StreamExhausted and MalformedStream still propagate even through the try variants". -/
def reader.try_read_nil (P : value_parse) (r : reader) : outcome Bool :=
  match r.check_data_in_stream with
  | .error e => (.error e, r)
  | .ok _ =>
    if r.m_current_val.type = .MSGPACK_OBJECT_NIL then (.ok true, r.next P) else (.ok false, r)

/-- Method `read_object_nullable<T>`:
`if (try_read_nil()) return std::nullopt; return read_object<T>();` -/
def reader.read_object_nullable {T : Type} (P : value_parse)
    (unpack_object : msgpack_object → Except ignite_error T) (r : reader) : outcome (Option T) :=
  match r.try_read_nil P with
  | (.error e, r1) => (.error e, r1)
  | (.ok true, r1) => (.ok none, r1)
  | (.ok false, r1) =>
    match r1.read_object P unpack_object with
    | (.error e, r2) => (.error e, r2)
    | (.ok res, r2) => (.ok (some res), r2)

/-- Method `read_object_or_default<T>`:
`if (try_read_nil()) return std::forward<T>(on_nil); return read_object<T>();` -/
def reader.read_object_or_default {T : Type} (P : value_parse)
    (unpack_object : msgpack_object → Except ignite_error T) (on_nil : T) (r : reader) :
    outcome T :=
  match r.try_read_nil P with
  | (.error e, r1) => (.error e, r1)
  | (.ok true, r1) => (.ok on_nil, r1)
  | (.ok false, r1) => r1.read_object P unpack_object

/-! ## Maps and arrays -/

/-- The loop `for (std::uint32_t i = 0; i < size; ++i) body(i)` from index `i` on, with
`n = size - i` iterations left. A body that throws ends the loop with its error. (The counter does
not wrap: `i < size`, and `size` is a `uint32_t`.) -/
def for_loop {σ : Type} (body : Nat → σ → Except ignite_error Unit × σ) :
    Nat → Nat → σ → Except ignite_error Unit × σ
  | 0, _, s => (.ok (), s)
  | n + 1, i, s =>
    match body i s with
    | (.error e, s1) => (.error e, s1)
    | (.ok _, s1) => for_loop body n (i + 1) s1

/-- The element `m_current_val.data.via.map.ptr[i]`; the source reads it at `i < size` only. -/
def msgpack_object.map_ptr (o : msgpack_object) (i : Nat) : msgpack_object_kv :=
  o.via_map.getD i (.mk .nil .nil)

/-- The element `m_current_val.data.via.array.ptr[i]`; the source reads it at `i < size` only. -/
def msgpack_object.array_ptr (o : msgpack_object) (i : Nat) : msgpack_object :=
  o.via_array.getD i .nil

/-- Method `read_map_size` (const): `check_data_in_stream();` then
`throw ignite_error("The value in stream is not a Map")` when
`m_current_val.data.type != MSGPACK_OBJECT_MAP`, else `return m_current_val.data.via.map.size`. -/
def reader.read_map_size (r : reader) : outcome Nat :=
  match r.check_data_in_stream with
  | .error e => (.error e, r)
  | .ok _ =>
    if r.m_current_val.type ≠ .MSGPACK_OBJECT_MAP then (.error NotAMap, r)
    else (.ok r.m_current_val.via_map.length, r)

/-- Method `read_map_raw`: `auto size = read_map_size();` then the loop calling
`handler(m_current_val.data.via.map.ptr[i])`, then `next()`. The third component of the result is
the state captured by the handler. -/
def reader.read_map_raw {σ : Type} (P : value_parse)
    (handler : msgpack_object_kv → σ → Except ignite_error Unit × σ) (r : reader) (s : σ) :
    Except ignite_error Unit × reader × σ :=
  match r.read_map_size with
  | (.error e, r1) => (.error e, r1, s)
  | (.ok size, r1) =>
    match for_loop (fun i s1 => handler (r1.m_current_val.map_ptr i) s1) size 0 s with
    | (.error e, s2) => (.error e, r1, s2)
    | (.ok _, s2) => (.ok (), r1.next P, s2)

/-- The loop body of `read_map<K, V>`:
`auto key = unpack_object<K>(ptr[i].key); auto val = unpack_object<V>(ptr[i].val);
handler(std::move(key), std::move(val));` -/
def read_map_body {K V σ : Type} (unpack_key : msgpack_object → Except ignite_error K)
    (unpack_val : msgpack_object → Except ignite_error V)
    (handler : K → V → σ → Except ignite_error Unit × σ) (o : msgpack_object) (i : Nat) (s : σ) :
    Except ignite_error Unit × σ :=
  match unpack_key (o.map_ptr i).key with
  | .error e => (.error e, s)
  | .ok key =>
    match unpack_val (o.map_ptr i).val with
    | .error e => (.error e, s)
    | .ok val => handler key val s

/-- Method `read_map<K, V>`: `auto size = read_map_size();` then the loop over `read_map_body`,
then `next()`. -/
def reader.read_map {K V σ : Type} (P : value_parse)
    (unpack_key : msgpack_object → Except ignite_error K)
    (unpack_val : msgpack_object → Except ignite_error V)
    (handler : K → V → σ → Except ignite_error Unit × σ) (r : reader) (s : σ) :
    Except ignite_error Unit × reader × σ :=
  match r.read_map_size with
  | (.error e, r1) => (.error e, r1, s)
  | (.ok size, r1) =>
    match for_loop (read_map_body unpack_key unpack_val handler r1.m_current_val) size 0 s with
    | (.error e, s2) => (.error e, r1, s2)
    | (.ok _, s2) => (.ok (), r1.next P, s2)

/-- Modelled from the spec: the error of `unpack_array_size` on a value that is not an array, a
TypeMismatch (§4.3); its message is not given by the spec. -/
def NotAnArray : ignite_error :=
  ⟨.TypeMismatch, "The value in stream is not an Array"⟩

/-- Modelled from the spec: `unpack_array_size` of utils.h, through §4.3 on `read_array_size`:
"requires staged tag is Array; fails with TypeMismatch otherwise; returns element count". -/
def unpack_array_size : msgpack_object → Except ignite_error Nat
  | .array ptr => .ok ptr.length
  | _ => .error NotAnArray

/-- Method `read_array_size` (const):
`check_data_in_stream(); return unpack_array_size(m_current_val.data);` -/
def reader.read_array_size (r : reader) : outcome Nat :=
  match r.check_data_in_stream with
  | .error e => (.error e, r)
  | .ok _ =>
    match unpack_array_size r.m_current_val with
    | .error e => (.error e, r)
    | .ok size => (.ok size, r)

/-- Method `read_array_raw`: `auto size = read_array_size();` then the loop calling
`read_func(i, m_current_val.data.via.array.ptr[i])`, then `next()`. The third component of the
result is the state captured by the visitor. -/
def reader.read_array_raw {σ : Type} (P : value_parse)
    (read_func : Nat → msgpack_object → σ → Except ignite_error Unit × σ) (r : reader) (s : σ) :
    Except ignite_error Unit × reader × σ :=
  match r.read_array_size with
  | (.error e, r1) => (.error e, r1, s)
  | (.ok size, r1) =>
    match for_loop (fun i s1 => read_func i (r1.m_current_val.array_ptr i) s1) size 0 s with
    | (.error e, s2) => (.error e, r1, s2)
    | (.ok _, s2) => (.ok (), r1.next P, s2)

/-- The loop body of `read_array<T>(unpack_func)`, on the vector `res`:
`auto val = unpack_func(ptr[i]); res.emplace_back(std::move(val));` -/
def read_array_body {T : Type} (unpack_func : msgpack_object → Except ignite_error T)
    (o : msgpack_object) (i : Nat) (res : List T) : Except ignite_error Unit × List T :=
  match unpack_func (o.array_ptr i) with
  | .error e => (.error e, res)
  | .ok val => (.ok (), res ++ [val])

/-- Method `read_array<T>(unpack_func)`: `auto size = read_array_size(); std::vector<T> res;` then
the loop over `read_array_body`, then `next(); return res;` -/
def reader.read_array {T : Type} (P : value_parse)
    (unpack_func : msgpack_object → Except ignite_error T) (r : reader) : outcome (List T) :=
  match r.read_array_size with
  | (.error e, r1) => (.error e, r1)
  | (.ok size, r1) =>
    match for_loop (read_array_body unpack_func r1.m_current_val) size 0 [] with
    | (.error e, _) => (.error e, r1)
    | (.ok _, res) => (.ok res, r1.next P)

/-- Method `read_array<T>()`: `return read_array<T>(unpack_object<T>);` -/
def reader.read_array_of {T : Type} (P : value_parse)
    (unpack_object : msgpack_object → Except ignite_error T) (r : reader) : outcome (List T) :=
  r.read_array P unpack_object

/-- Modelled from the spec: the error of `unpack_binary` on a value that is neither binary nor
string, a TypeMismatch (§4.5); its message is not given by the spec. -/
def NotABinary : ignite_error :=
  ⟨.TypeMismatch, "The value in stream is not a Binary"⟩

/-- Modelled from the spec: `unpack_binary` of utils.h, through §4.5 on `read_binary`: "requires
staged tag is Binary or String; fails with TypeMismatch otherwise; returns a zero-copy view onto
the byte range". -/
def unpack_binary : msgpack_object → Except ignite_error (List Nat)
  | .bin bytes => .ok bytes
  | .str bytes => .ok bytes
  | _ => .error NotABinary

/-- Method `read_binary`: `auto res = unpack_binary(m_current_val.data); next(); return res;` -/
def reader.read_binary (P : value_parse) (r : reader) : outcome (List Nat) :=
  match unpack_binary r.m_current_val with
  | .error e => (.error e, r)
  | .ok res => (.ok res, r.next P)

/-! ## Typed scalars -/

/-- Modelled from the spec: the error of a typed read on a value of another tag, a TypeMismatch
(§4.2); its message is not given by the spec. -/
def WrongType : ignite_error :=
  ⟨.TypeMismatch, "The value in stream is not of the requested type"⟩

/-- Modelled from the spec: the error of a numeric read whose width cannot represent the encoded
value, a NumericOverflow (§7); its message is not given by the spec. -/
def Overflow : ignite_error :=
  ⟨.NumericOverflow, "The number in stream does not fit the requested type"⟩

/-- Modelled from the spec: the error of a string read over bytes that are not UTF-8, a
MalformedStream (§4.2, §7); its message is not given by the spec. -/
def InvalidText : ignite_error :=
  ⟨.MalformedStream, "The string in stream is not valid UTF-8"⟩

/-- Whether `v` is in the range of the signed integers of `w` bits. -/
def fits_signed (w : Nat) (v : Int) : Bool :=
  decide (-(2 : Int) ^ (w - 1) ≤ v ∧ v < (2 : Int) ^ (w - 1))

/-- Modelled from the spec: `unpack_object<T>` of utils.h for T a signed integer of `w` bits
(int16_t, int32_t, int64_t), §4.2: "fails with TypeMismatch if the staged tag is incompatible",
"must accept any msgpack-style integer width ≤ T's width and fail on overflow narrowing (...
must fail if it does not fit, not silently truncate)". -/
def unpack_object_int (w : Nat) : msgpack_object → Except ignite_error Int
  | .integer _ _ v => if fits_signed w v then .ok v else .error Overflow
  | _ => .error WrongType

/-- Modelled from the spec: `try_unpack_object<T>` of utils.h for T a signed integer of `w` bits,
§4.2: "returns no value (rather than failing) when the staged tag does not match T"; an overflow
is a TypeMismatch-class condition (§7), which the try variants turn into no value. -/
def try_unpack_object_int (w : Nat) : msgpack_object → Except ignite_error (Option Int)
  | .integer _ _ v => if fits_signed w v then .ok (some v) else .ok none
  | _ => .ok none

/-- Modelled from the spec: `unpack_object<std::string>` of utils.h, §4.2: "String reads decode
the raw byte range as UTF-8 text; invalid encoding is a MalformedStream condition". The UTF-8
decoding of a byte range is the parameter `utf8`. -/
def unpack_object_string (utf8 : List Nat → Option String) :
    msgpack_object → Except ignite_error String
  | .str bytes =>
    match utf8 bytes with
    | some text => .ok text
    | none => .error InvalidText
  | _ => .error WrongType

/-- Modelled from the spec: `try_unpack_object<std::string>` of utils.h, §4.2 and §7: no value
when the staged tag is not a string, while a MalformedStream still propagates. -/
def try_unpack_object_string (utf8 : List Nat → Option String) :
    msgpack_object → Except ignite_error (Option String)
  | .str bytes =>
    match utf8 bytes with
    | some text => .ok (some text)
    | none => .error InvalidText
  | _ => .ok none

/-! ## Concrete instances of the parameters -/

/-- A value-tag parser for a fragment of the format (one-byte non-negative integers below 0x80,
nil 0xc0, false 0xc2, true 0xc3, strings of up to 31 bytes with the header 0xa0 + length), to run
the reader on concrete buffers. It fails on an offset at or past the end, on a string cut short
and on every other tag. -/
def sample_parse : value_parse := fun buffer off =>
  match buffer.drop off with
  | [] => none
  | b :: rest =>
    if b < 0x80 then some (.integer 8 false b, off + 1)
    else if b = 0xc0 then some (.nil, off + 1)
    else if b = 0xc2 then some (.boolean false, off + 1)
    else if b = 0xc3 then some (.boolean true, off + 1)
    else if 0xa0 ≤ b ∧ b < 0xc0 then
      if b - 0xa0 ≤ rest.length then some (.str (rest.take (b - 0xa0)), off + 1 + (b - 0xa0))
      else none
    else none

/-- A decoder of the ASCII fragment of UTF-8, to run string reads on concrete values. -/
def ascii_text (bytes : List Nat) : Option String :=
  if bytes.all (fun b => b < 0x80) then some (String.mk (bytes.map Char.ofNat)) else none

/-- A typed pair handler that records the pairs it is called with, in call order, and never
throws. -/
def record_pair {K V : Type} (key : K) (val : V) (calls : List (K × V)) :
    Except ignite_error Unit × List (K × V) :=
  (.ok (), calls ++ [(key, val)])

/-- A raw pair handler that records the pairs it is called with, in call order, and never
throws. -/
def record_kv (kv : msgpack_object_kv) (calls : List msgpack_object_kv) :
    Except ignite_error Unit × List msgpack_object_kv :=
  (.ok (), calls ++ [kv])

/-- An array visitor that records the indices and elements it is called with, in call order, and
never throws. -/
def record_element (idx : Nat) (o : msgpack_object) (calls : List (Nat × msgpack_object)) :
    Except ignite_error Unit × List (Nat × msgpack_object) :=
  (.ok (), calls ++ [(idx, o)])

/-- A reader staged (status ok, offset 0) on the array [3, 1, 2] that fills its four-byte
buffer. -/
def reader_on_array_3_1_2 : reader :=
  { m_buffer := [0x93, 3, 1, 2]
    m_current_val := .array [.integer 8 false 3, .integer 8 false 1, .integer 8 false 2]
    m_move_res := status.ok.code
    m_offset_next := 4
    m_offset := 0 }

/-- A reader staged (status ok, offset 0) on the map with the pairs 1 ↦ 10 and 1 ↦ 20, in this
order, that fills its five-byte buffer: the key 1 is repeated. -/
def reader_on_repeated_key : reader :=
  { m_buffer := [0x82, 1, 10, 1, 20]
    m_current_val :=
      .map [.mk (.integer 8 false 1) (.integer 8 false 10),
            .mk (.integer 8 false 1) (.integer 8 false 20)]
    m_move_res := status.ok.code
    m_offset_next := 5
    m_offset := 0 }

/-- A reader staged (status ok, offset 0) on the empty array, followed in the buffer by the
integer 7. -/
def reader_on_empty_array : reader :=
  { m_buffer := [0x90, 7]
    m_current_val := .array []
    m_move_res := status.ok.code
    m_offset_next := 1
    m_offset := 0 }

/-- The four pairs of the record `id`: a 16-byte extension value, `name`: "alice", `age`: 30,
`tags`: ["x", "y"], keys and strings as their bytes. -/
def record_pairs : List msgpack_object_kv :=
  [.mk (.str [0x69, 0x64]) (.ext 3 [0, 1, 2, 3, 4, 5, 6, 7, 8, 9, 10, 11, 12, 13, 14, 15]),
   .mk (.str [0x6e, 0x61, 0x6d, 0x65]) (.str [0x61, 0x6c, 0x69, 0x63, 0x65]),
   .mk (.str [0x61, 0x67, 0x65]) (.integer 8 false 30),
   .mk (.str [0x74, 0x61, 0x67, 0x73]) (.array [.str [0x78], .str [0x79]])]

/-- A reader staged (status ok, offset 0) on the map `record_pairs`, which fills its 48-byte
buffer. -/
def reader_on_record : reader :=
  { m_buffer :=
      [0x84, 0xa2, 0x69, 0x64, 0xd8, 3, 0, 1, 2, 3, 4, 5, 6, 7, 8, 9, 10, 11, 12, 13, 14, 15,
       0xa4, 0x6e, 0x61, 0x6d, 0x65, 0xa5, 0x61, 0x6c, 0x69, 0x63, 0x65,
       0xa3, 0x61, 0x67, 0x65, 30,
       0xa4, 0x74, 0x61, 0x67, 0x73, 0x92, 0xa1, 0x78, 0xa1, 0x79]
    m_current_val := .map record_pairs
    m_move_res := status.ok.code
    m_offset_next := 48
    m_offset := 0 }

/-- Modelled from the spec: what the reader relies on from the external value-tag parser: the
value it parses at an offset ends after that offset (§3: "next_offset > current_offset whenever
staging succeeded") and within the bounds-checked view (§2). -/
def parse_in_bounds (P : value_parse) : Prop :=
  ∀ (buffer : List Nat) (off : Nat) (v : msgpack_object) (n : Nat),
    P buffer off = some (v, n) → off < n ∧ n ≤ buffer.length

/-- The encoded byte lengths of the first `N` values of `buffer` from the offset `off` on: the
value the parser finds at an offset `o`, ending at the next offset `n`, takes `n - o` bytes.
`none` when fewer than `N` values parse. -/
def encoded_lengths (P : value_parse) (buffer : List Nat) : Nat → Nat → Option (List Nat)
  | 0, _ => some []
  | N + 1, off =>
    match P buffer off with
    | none => none
    | some (_, n) =>
      match encoded_lengths P buffer N n with
      | none => none
      | some lens => some ((n - off) :: lens)

/-- One call of a public operation of the reader, whatever its arguments and whether it returns
or throws: `reader_op_step P r r1` when some operation called on the state `r` leaves the
state `r1`. -/
inductive reader_op_step (P : value_parse) : reader → reader → Prop where
  | read_object {T : Type} (u : msgpack_object → Except ignite_error T) (r : reader) :
      reader_op_step P r (r.read_object P u).2
  | try_read_object {T : Type} (u : msgpack_object → Except ignite_error (Option T))
      (r : reader) : reader_op_step P r (r.try_read_object P u).2
  | read_object_nullable {T : Type} (u : msgpack_object → Except ignite_error T) (r : reader) :
      reader_op_step P r (r.read_object_nullable P u).2
  | read_object_or_default {T : Type} (u : msgpack_object → Except ignite_error T) (d : T)
      (r : reader) : reader_op_step P r (r.read_object_or_default P u d).2
  | try_read_nil (r : reader) : reader_op_step P r (r.try_read_nil P).2
  | read_map_size (r : reader) : reader_op_step P r (r.read_map_size).2
  | read_map_raw {σ : Type} (h : msgpack_object_kv → σ → Except ignite_error Unit × σ)
      (s : σ) (r : reader) : reader_op_step P r (r.read_map_raw P h s).2.1
  | read_map {K V σ : Type} (uk : msgpack_object → Except ignite_error K)
      (uv : msgpack_object → Except ignite_error V)
      (h : K → V → σ → Except ignite_error Unit × σ) (s : σ) (r : reader) :
      reader_op_step P r (r.read_map P uk uv h s).2.1
  | read_array_size (r : reader) : reader_op_step P r (r.read_array_size).2
  | read_array_raw {σ : Type} (f : Nat → msgpack_object → σ → Except ignite_error Unit × σ)
      (s : σ) (r : reader) : reader_op_step P r (r.read_array_raw P f s).2.1
  | read_array {T : Type} (f : msgpack_object → Except ignite_error T) (r : reader) :
      reader_op_step P r (r.read_array P f).2
  | read_binary (r : reader) : reader_op_step P r (r.read_binary P).2
  | skip (r : reader) : reader_op_step P r (r.skip P).2

/-- The reader state agrees with the parser: with status ok, the current value and the next
offset are what the parser finds at the offset; with a failed status the parser finds no value
at the offset. -/
def reader.staged_by (P : value_parse) (r : reader) : Prop :=
  (r.m_move_res < 0 → P r.m_buffer r.m_offset = none) ∧
  (0 ≤ r.m_move_res → P r.m_buffer r.m_offset = some (r.m_current_val, r.m_offset_next))

/-- Method `read_int16`: `return read_object<std::int16_t>();` -/
def reader.read_int16 (P : value_parse) (r : reader) : outcome Int :=
  r.read_object P (unpack_object_int 16)

/-- Method `read_int32`: `return read_object<std::int32_t>();` -/
def reader.read_int32 (P : value_parse) (r : reader) : outcome Int :=
  r.read_object P (unpack_object_int 32)

/-- Method `try_read_int32`: `return try_read_object<std::int32_t>();` -/
def reader.try_read_int32 (P : value_parse) (r : reader) : outcome (Option Int) :=
  r.try_read_object P (try_unpack_object_int 32)

/-- Method `read_int64`: `return read_object<int64_t>();` -/
def reader.read_int64 (P : value_parse) (r : reader) : outcome Int :=
  r.read_object P (unpack_object_int 64)

/-- A reader staged (status ok, offset 0) on the integer 70000, encoded as an unsigned 32-bit
integer that fills its five-byte buffer. -/
def reader_on_70000 : reader :=
  { m_buffer := [0xce, 0x00, 0x01, 0x11, 0x70]
    m_current_val := .integer 32 false 70000
    m_move_res := status.ok.code
    m_offset_next := 5
    m_offset := 0 }

/-- An array visitor for `read_array_raw` that decodes each element with `unpack_func` and
collects the values in the vector it captures; it throws what `unpack_func` throws. -/
def collect_element {T : Type} (unpack_func : msgpack_object → Except ignite_error T)
    (_idx : Nat) (o : msgpack_object) (res : List T) : Except ignite_error Unit × List T :=
  match unpack_func o with
  | .error e => (.error e, res)
  | .ok val => (.ok (), res ++ [val])

/-- An array visitor that records the calls it completes and throws `e` when called at the index
`bad`. -/
def record_element_until (bad : Nat) (e : ignite_error) (idx : Nat) (o : msgpack_object)
    (calls : List (Nat × msgpack_object)) :
    Except ignite_error Unit × List (Nat × msgpack_object) :=
  if idx = bad then (.error e, calls) else (.ok (), calls ++ [(idx, o)])

/-- A raw pair handler that records the calls it completes and throws `e` when called with a
pair whose value has the tag `bad`. -/
def record_kv_unless (bad : msgpack_object_type) (e : ignite_error) (kv : msgpack_object_kv)
    (calls : List msgpack_object_kv) : Except ignite_error Unit × List msgpack_object_kv :=
  if kv.val.type = bad then (.error e, calls) else (.ok (), calls ++ [kv])

/-- The error thrown by the throwing handlers of the examples. -/
def HandlerFailure : ignite_error :=
  ⟨.TypeMismatch, "Unexpected value"⟩

/-- A reader staged (status ok, offset 0) on the array [1, "x", 2], which fills its five-byte
buffer. -/
def reader_on_mixed_array : reader :=
  { m_buffer := [0x93, 1, 0xa1, 0x78, 2]
    m_current_val := .array [.integer 8 false 1, .str [0x78], .integer 8 false 2]
    m_move_res := status.ok.code
    m_offset_next := 5
    m_offset := 0 }

/-- Whether an outcome is a return, not a throw. -/
def returned {α : Type} : Except ignite_error α → Bool
  | .ok _ => true
  | .error _ => false

/-- Whether the outcome of a try read is the return of a value (not "no value", not a throw). -/
def returned_value {α : Type} : Except ignite_error (Option α) → Bool
  | .ok (some _) => true
  | _ => false

/-- Whether the outcome of `try_read_nil` is the return of true. -/
def returned_true : Except ignite_error Bool → Bool
  | .ok true => true
  | _ => false

/-- One call of a public operation of the reader, with whether the call consumed the staged
value: `reader_op_consumes P r b r1` when some operation called on the state `r` leaves the state
`r1`, and `b` tells whether it consumed a value. A read consumes the staged value when it returns
it (`read_object`, `read_object_nullable`, `read_object_or_default`, the array and map reads,
`read_binary`), a try read when it returns a value (`try_read_object`) or true (`try_read_nil`),
`skip` always; the size queries consume nothing, a call that throws consumes nothing, and nothing
is consumed from a reader whose status is not ok, which has no staged value. -/
inductive reader_op_consumes (P : value_parse) : reader → Bool → reader → Prop where
  | read_object {T : Type} (u : msgpack_object → Except ignite_error T) (r : reader) :
      reader_op_consumes P r (returned (r.read_object P u).1) (r.read_object P u).2
  | try_read_object {T : Type} (u : msgpack_object → Except ignite_error (Option T))
      (r : reader) :
      reader_op_consumes P r (returned_value (r.try_read_object P u).1)
        (r.try_read_object P u).2
  | read_object_nullable {T : Type} (u : msgpack_object → Except ignite_error T) (r : reader) :
      reader_op_consumes P r (returned (r.read_object_nullable P u).1)
        (r.read_object_nullable P u).2
  | read_object_or_default {T : Type} (u : msgpack_object → Except ignite_error T) (d : T)
      (r : reader) :
      reader_op_consumes P r (returned (r.read_object_or_default P u d).1)
        (r.read_object_or_default P u d).2
  | try_read_nil (r : reader) :
      reader_op_consumes P r (returned_true (r.try_read_nil P).1) (r.try_read_nil P).2
  | read_map_size (r : reader) : reader_op_consumes P r false (r.read_map_size).2
  | read_map_raw {σ : Type} (h : msgpack_object_kv → σ → Except ignite_error Unit × σ)
      (s : σ) (r : reader) :
      reader_op_consumes P r (returned (r.read_map_raw P h s).1) (r.read_map_raw P h s).2.1
  | read_map {K V σ : Type} (uk : msgpack_object → Except ignite_error K)
      (uv : msgpack_object → Except ignite_error V)
      (h : K → V → σ → Except ignite_error Unit × σ) (s : σ) (r : reader) :
      reader_op_consumes P r (returned (r.read_map P uk uv h s).1)
        (r.read_map P uk uv h s).2.1
  | read_array_size (r : reader) : reader_op_consumes P r false (r.read_array_size).2
  | read_array_raw {σ : Type} (f : Nat → msgpack_object → σ → Except ignite_error Unit × σ)
      (s : σ) (r : reader) :
      reader_op_consumes P r (returned (r.read_array_raw P f s).1)
        (r.read_array_raw P f s).2.1
  | read_array {T : Type} (f : msgpack_object → Except ignite_error T) (r : reader) :
      reader_op_consumes P r (returned (r.read_array P f).1) (r.read_array P f).2
  | read_binary (r : reader) :
      reader_op_consumes P r (returned (r.read_binary P).1 && decide (0 ≤ r.m_move_res))
        (r.read_binary P).2
  | skip (r : reader) : reader_op_consumes P r (decide (0 ≤ r.m_move_res)) (r.skip P).2

/-- A sequence of calls of public operations: `reader_run P r N r1` when some sequence of
operations, in which exactly `N` calls consumed a value, leads from the state `r` to the
state `r1`. -/
inductive reader_run (P : value_parse) : reader → Nat → reader → Prop where
  | start (r : reader) : reader_run P r 0 r
  | consume {r r1 r2 : reader} {N : Nat} :
      reader_run P r N r1 → reader_op_consumes P r1 true r2 → reader_run P r (N + 1) r2
  | keep {r r1 r2 : reader} {N : Nat} :
      reader_run P r N r1 → reader_op_consumes P r1 false r2 → reader_run P r N r2

/-- The reader `r` stands in `buffer` right after the first `N` values: it agrees with the
parser, a failed status comes with a next offset equal to the offset, and the offset is the sum
of the encoded lengths of the first `N` values of the buffer. -/
def reader.stands_after (P : value_parse) (buffer : List Nat) (N : Nat) (r : reader) : Prop :=
  r.staged_by P ∧ (r.m_move_res < 0 → r.m_offset_next = r.m_offset) ∧ r.m_buffer = buffer ∧
  ∃ lens, encoded_lengths P buffer N 0 = some lens ∧ r.m_offset = lens.sum

/-- The calls `act a_0`, `act a_1`, ... on the items of a list, in list order, each on the
captured state the call before it left, up to the first call that throws: what a traversal in
encoded order that ends at the first failure does. Its outcome is the error of that call, or a
return when no call throws; its state is the one the last call made left. -/
def call_in_order {α σ : Type} (act : α → σ → Except ignite_error Unit × σ) :
    List α → σ → Except ignite_error Unit × σ
  | [], s => (.ok (), s)
  | a :: rest, s =>
    match act a s with
    | (.error e, s1) => (.error e, s1)
    | (.ok _, s1) => call_in_order act rest s1

/-- What a traversal leaves behind: when its calls threw, the error, the reader as it was and the
captured state; when they all returned, the reader advanced once and the captured state. -/
def reader.after_traversal {σ : Type} (P : value_parse) (r : reader) :
    Except ignite_error Unit × σ → Except ignite_error Unit × reader × σ
  | (.error e, s) => (.error e, r, s)
  | (.ok _, s) => (.ok (), r.next P, s)

/-- The call of an array visitor on an element paired with its index. -/
def visit_indexed {σ : Type} (v : Nat → msgpack_object → σ → Except ignite_error Unit × σ)
    (p : Nat × msgpack_object) (s : σ) : Except ignite_error Unit × σ :=
  v p.1 p.2 s

/-- What `read_map<K, V>` does with one pair: decode the key as K, then the value as V, then call
the handler on the two; it throws what the first of these to throw throws. -/
def decode_and_handle {K V σ : Type} (unpack_key : msgpack_object → Except ignite_error K)
    (unpack_val : msgpack_object → Except ignite_error V)
    (handler : K → V → σ → Except ignite_error Unit × σ) (kv : msgpack_object_kv) (s : σ) :
    Except ignite_error Unit × σ :=
  match unpack_key kv.key with
  | .error e => (.error e, s)
  | .ok key =>
    match unpack_val kv.val with
    | .error e => (.error e, s)
    | .ok val => handler key val s

/-- What `read_array<T>(unpack_func)` does with one element: decode it and append the value to
the vector; it throws what the decoder throws. -/
def decode_and_collect {T : Type} (unpack_func : msgpack_object → Except ignite_error T)
    (o : msgpack_object) (res : List T) : Except ignite_error Unit × List T :=
  match unpack_func o with
  | .error e => (.error e, res)
  | .ok val => (.ok (), res ++ [val])

/-- A typed pair handler that records the pairs it accepts and throws `HandlerFailure` when
called with a key it has recorded before: whether it throws depends on the state it captured. -/
def record_pair_once (key : Int) (val : Int) (calls : List (Int × Int)) :
    Except ignite_error Unit × List (Int × Int) :=
  if calls.any (fun c => c.1 == key) then (.error HandlerFailure, calls)
  else (.ok (), calls ++ [(key, val)])

/-! ## Properties -/

/-- C1: over a staged string (status ok) `try_read_object<int32_t>` returns no value and leaves the
reader as it was, and a following `try_read_object<std::string>` on the reader it left returns the
string and advances once; for every T, when `try_unpack_object<T>` has no value for the staged
value (status ok), `try_read_object<T>` returns no value and leaves the reader unchanged. -/
theorem try_read_object_mismatch_keeps_cursor :
    (∀ (P : value_parse) (utf8 : List Nat → Option String) (r : reader) (bytes : List Nat)
        (s : String), 0 ≤ r.m_move_res → r.m_current_val = .str bytes → utf8 bytes = some s →
        r.try_read_object P (try_unpack_object_int 32) = (.ok none, r) ∧
        (r.try_read_object P (try_unpack_object_int 32)).2.position = r.position ∧
        (r.try_read_object P (try_unpack_object_int 32)).2.m_current_val = r.m_current_val ∧
        (r.try_read_object P (try_unpack_object_int 32)).2.try_read_object P
            (try_unpack_object_string utf8) = (.ok (some s), r.next P)) ∧
    (∀ (T : Type) (P : value_parse)
        (try_unpack_object : msgpack_object → Except ignite_error (Option T)) (r : reader),
        0 ≤ r.m_move_res → try_unpack_object r.m_current_val = .ok none →
        r.try_read_object P try_unpack_object = (.ok none, r)) := by
  have general : ∀ (T : Type) (P : value_parse)
      (f : msgpack_object → Except ignite_error (Option T)) (r : reader),
      0 ≤ r.m_move_res → f r.m_current_val = .ok none →
      r.try_read_object P f = (.ok none, r) := by
    intro T P f r hok hnone
    have hlt : ¬ r.m_move_res < 0 := not_lt.mpr hok
    simp [reader.try_read_object, reader.check_data_in_stream, hlt, hnone]
  refine ⟨?_, general⟩
  intro P utf8 r bytes s hok hval htext
  have hfirst : r.try_read_object P (try_unpack_object_int 32) = (.ok none, r) :=
    general Int P _ r hok (by rw [hval]; rfl)
  have hlt : ¬ r.m_move_res < 0 := not_lt.mpr hok
  refine ⟨hfirst, by rw [hfirst], by rw [hfirst], ?_⟩
  rw [hfirst]
  simp [reader.try_read_object, reader.check_data_in_stream, hlt, hval, try_unpack_object_string,
    htext]

/-- C1, on the buffer holding the string "hi" and then the integer 5. -/
theorem try_read_object_mismatch_keeps_cursor_witness :
    (reader.construct sample_parse [0xa2, 0x68, 0x69, 5]).try_read_object sample_parse
        (try_unpack_object_int 32)
      = (.ok none, reader.construct sample_parse [0xa2, 0x68, 0x69, 5]) ∧
    ((reader.construct sample_parse [0xa2, 0x68, 0x69, 5]).try_read_object sample_parse
        (try_unpack_object_int 32)).2.try_read_object sample_parse
        (try_unpack_object_string ascii_text)
      = (.ok (some "hi"), (reader.construct sample_parse [0xa2, 0x68, 0x69, 5]).next sample_parse) ∧
    (reader.construct sample_parse [0xc0, 5]).try_read_object sample_parse
        (try_unpack_object_string ascii_text)
      = (.ok none, reader.construct sample_parse [0xc0, 5]) :=
  ⟨(try_read_object_mismatch_keeps_cursor.1 sample_parse ascii_text
      (reader.construct sample_parse [0xa2, 0x68, 0x69, 5]) [0x68, 0x69] "hi"
      (by decide) (by rfl) (by rfl)).1,
   (try_read_object_mismatch_keeps_cursor.1 sample_parse ascii_text
      (reader.construct sample_parse [0xa2, 0x68, 0x69, 5]) [0x68, 0x69] "hi"
      (by decide) (by rfl) (by rfl)).2.2.2,
   try_read_object_mismatch_keeps_cursor.2 String sample_parse
      (try_unpack_object_string ascii_text) (reader.construct sample_parse [0xc0, 5])
      (by decide) (by rfl)⟩

/-- C2: for every T, `read_object<T>` on a reader whose status is not ok (`m_move_res < 0`) throws
"No more data in stream" (StreamExhausted) and leaves the reader as it was; with status ok and a
staged value that `unpack_object<T>` decodes to `x` it returns `x` and the reader is advanced
exactly once (the state one `skip` reaches). -/
theorem read_object_requires_status_ok :
    (∀ (T : Type) (P : value_parse) (unpack_object : msgpack_object → Except ignite_error T)
        (r : reader), r.m_move_res < 0 →
        r.read_object P unpack_object = (.error StreamExhausted, r) ∧
        StreamExhausted.cls = .StreamExhausted ∧
        StreamExhausted.message = "No more data in stream") ∧
    (∀ (T : Type) (P : value_parse) (unpack_object : msgpack_object → Except ignite_error T)
        (r : reader) (x : T), 0 ≤ r.m_move_res → unpack_object r.m_current_val = .ok x →
        r.read_object P unpack_object = (.ok x, r.next P) ∧
        (r.read_object P unpack_object).2 = (r.skip P).2) := by
  constructor
  · intro T P f r hlt
    simp [reader.read_object, reader.check_data_in_stream, hlt, StreamExhausted]
  · intro T P f r x hok hx
    have hlt : ¬ r.m_move_res < 0 := not_lt.mpr hok
    simp [reader.read_object, reader.check_data_in_stream, hlt, hx, reader.skip]

/-- C2, on the empty buffer (status exhausted) and on the buffer holding the integers 7 and 9. -/
theorem read_object_requires_status_ok_witness :
    (reader.construct sample_parse []).read_object sample_parse (unpack_object_int 32)
      = (.error StreamExhausted, reader.construct sample_parse []) ∧
    (reader.construct sample_parse [7, 9]).read_object sample_parse (unpack_object_int 32)
      = (.ok 7, (reader.construct sample_parse [7, 9]).next sample_parse) :=
  ⟨(read_object_requires_status_ok.1 Int sample_parse (unpack_object_int 32)
      (reader.construct sample_parse []) (by decide)).1,
   (read_object_requires_status_ok.2 Int sample_parse (unpack_object_int 32)
      (reader.construct sample_parse [7, 9]) 7 (by decide) (by rfl)).1⟩

/-- C3: for every T and a reader with status ok, `read_object_nullable<T>` over a staged nil
returns nullopt without error and advances past the nil; over a staged value that is not nil it
returns what `read_object<T>` returns (wrapped as present) and reaches the state `read_object<T>`
reaches: present `x` and one advance when `unpack_object<T>` decodes the value to `x`, the
TypeMismatch of `unpack_object<T>`, with the reader unmoved, when the value is incompatible. -/
theorem read_object_nullable_nil_handling :
    (∀ (T : Type) (P : value_parse) (unpack_object : msgpack_object → Except ignite_error T)
        (r : reader), 0 ≤ r.m_move_res → r.m_current_val = .nil →
        r.read_object_nullable P unpack_object = (.ok none, r.next P)) ∧
    (∀ (T : Type) (P : value_parse) (unpack_object : msgpack_object → Except ignite_error T)
        (r : reader), 0 ≤ r.m_move_res → r.m_current_val.type ≠ .MSGPACK_OBJECT_NIL →
        r.read_object_nullable P unpack_object
          = (Except.map some (r.read_object P unpack_object).1,
             (r.read_object P unpack_object).2)) ∧
    (∀ (T : Type) (P : value_parse) (unpack_object : msgpack_object → Except ignite_error T)
        (r : reader) (x : T), 0 ≤ r.m_move_res → r.m_current_val.type ≠ .MSGPACK_OBJECT_NIL →
        unpack_object r.m_current_val = .ok x →
        r.read_object_nullable P unpack_object = (.ok (some x), r.next P) ∧
        r.read_object P unpack_object = (.ok x, r.next P)) ∧
    (∀ (T : Type) (P : value_parse) (unpack_object : msgpack_object → Except ignite_error T)
        (r : reader) (e : ignite_error), 0 ≤ r.m_move_res →
        r.m_current_val.type ≠ .MSGPACK_OBJECT_NIL →
        unpack_object r.m_current_val = .error e → e.cls = .TypeMismatch →
        r.read_object_nullable P unpack_object = (.error e, r) ∧
        ∃ e1, (r.read_object_nullable P unpack_object).1 = .error e1 ∧
          e1.cls = .TypeMismatch) := by
  refine ⟨?_, ?_, ?_, ?_⟩
  · intro T P f r hok hnil
    have hlt : ¬ r.m_move_res < 0 := not_lt.mpr hok
    simp [reader.read_object_nullable, reader.try_read_nil, reader.check_data_in_stream, hlt,
      hnil, msgpack_object.type]
  · intro T P f r hok hty
    have hlt : ¬ r.m_move_res < 0 := not_lt.mpr hok
    simp only [reader.read_object_nullable, reader.try_read_nil, reader.check_data_in_stream,
      hlt, hty, if_false, reader.read_object]
    cases f r.m_current_val <;> rfl
  · intro T P f r x hok hty hx
    have hlt : ¬ r.m_move_res < 0 := not_lt.mpr hok
    simp [reader.read_object_nullable, reader.try_read_nil, reader.check_data_in_stream, hlt,
      hty, reader.read_object, hx]
  · intro T P f r e hok hty he hcls
    have hlt : ¬ r.m_move_res < 0 := not_lt.mpr hok
    have h : r.read_object_nullable P f = (.error e, r) := by
      simp [reader.read_object_nullable, reader.try_read_nil, reader.check_data_in_stream, hlt,
        hty, reader.read_object, he]
    exact ⟨h, e, by rw [h], hcls⟩

/-- C3, on the buffers holding nil then 5, and 7 then 9, read as a nullable int32 and (the
latter) as a nullable string. -/
theorem read_object_nullable_nil_handling_witness :
    (reader.construct sample_parse [0xc0, 5]).read_object_nullable sample_parse
        (unpack_object_int 32)
      = (.ok none, (reader.construct sample_parse [0xc0, 5]).next sample_parse) ∧
    (reader.construct sample_parse [7, 9]).read_object_nullable sample_parse
        (unpack_object_int 32)
      = (Except.map some
          ((reader.construct sample_parse [7, 9]).read_object sample_parse
            (unpack_object_int 32)).1,
         ((reader.construct sample_parse [7, 9]).read_object sample_parse
            (unpack_object_int 32)).2) ∧
    (reader.construct sample_parse [7, 9]).read_object_nullable sample_parse
        (unpack_object_int 32)
      = (.ok (some 7), (reader.construct sample_parse [7, 9]).next sample_parse) ∧
    (reader.construct sample_parse [7, 9]).read_object_nullable sample_parse
        (unpack_object_string ascii_text)
      = (.error WrongType, reader.construct sample_parse [7, 9]) :=
  ⟨read_object_nullable_nil_handling.1 Int sample_parse (unpack_object_int 32)
      (reader.construct sample_parse [0xc0, 5]) (by decide) (by rfl),
   read_object_nullable_nil_handling.2.1 Int sample_parse (unpack_object_int 32)
      (reader.construct sample_parse [7, 9]) (by decide) (by decide),
   (read_object_nullable_nil_handling.2.2.1 Int sample_parse (unpack_object_int 32)
      (reader.construct sample_parse [7, 9]) 7 (by decide) (by decide) (by rfl)).1,
   (read_object_nullable_nil_handling.2.2.2 String sample_parse
      (unpack_object_string ascii_text) (reader.construct sample_parse [7, 9]) WrongType
      (by decide) (by decide) (by rfl) (by rfl)).1⟩

/-! ### Loops -/

/-- A loop whose body, at each index `i` of the list `l`, succeeds with the effect `step b` for a
`b` related to `l[i]`, succeeds with the effects of the related values, in list order. -/
theorem for_loop_forall₂ {α β σ : Type} (l : List α) (R : α → β → Prop) (step : β → σ → σ)
    (body : Nat → σ → Except ignite_error Unit × σ)
    (hbody : ∀ (i : Nat) (s : σ) (a : α) (b : β), l[i]? = some a → R a b →
      body i s = (.ok (), step b s)) :
    ∀ (n i : Nat) (s : σ) (ys : List β), i + n = l.length → List.Forall₂ R (l.drop i) ys →
      for_loop body n i s = (.ok (), ys.foldl (fun s1 b => step b s1) s) := by
  intro n
  induction n with
  | zero =>
    intro i s ys hlen hF
    have hnil : l.drop i = [] := List.drop_eq_nil_of_le (by omega)
    rw [hnil, List.forall₂_nil_left_iff] at hF
    subst hF
    rfl
  | succ n ih =>
    intro i s ys hlen hF
    have hi : i < l.length := by omega
    rw [List.drop_eq_getElem_cons hi, List.forall₂_cons_left_iff] at hF
    obtain ⟨b, u, hR, hT, rfl⟩ := hF
    simp only [for_loop, hbody i s _ b (List.getElem?_eq_getElem hi) hR, List.foldl_cons]
    exact ih (i + 1) _ u (by omega) hT

/-- A loop whose body does not throw below the index `N` does not throw when it stays
below `N`. -/
theorem for_loop_ok {σ : Type} (N : Nat) (body : Nat → σ → Except ignite_error Unit × σ)
    (hbody : ∀ (i : Nat) (s : σ), i < N → (body i s).1 = .ok ()) :
    ∀ (n i : Nat) (s : σ), i + n ≤ N → (for_loop body n i s).1 = .ok () := by
  intro n
  induction n with
  | zero => intro i s _; rfl
  | succ n ih =>
    intro i s hle
    have hb := hbody i s (by omega)
    simp only [for_loop]
    rcases hres : body i s with ⟨res, s1⟩
    rw [hres] at hb
    cases res with
    | error e => simp at hb
    | ok u => exact ih (i + 1) s1 (by omega)

/-- Appending the elements of `ys` one at a time appends `ys`. -/
theorem foldl_emplace_back {β : Type} (ys : List β) :
    ∀ res : List β, ys.foldl (fun s1 b => s1 ++ [b]) res = res ++ ys := by
  induction ys with
  | nil => intro res; simp
  | cons y ys ih => intro res; simp [ih]

/-! ### Arrays and maps -/

/-- C4: for a reader staged (status ok) on an array with the elements `elems` and a decoder
`unpack_func` that decodes each element, `elems[i]` to `xs[i]`, `read_array` returns exactly `xs`,
of the length `read_array_size` returns, and advances once; decoding the staged array [3, 1, 2]
as int32 yields [3, 1, 2]. -/
theorem read_array_collects_in_order :
    (∀ (T : Type) (P : value_parse) (unpack_func : msgpack_object → Except ignite_error T)
        (r : reader) (elems : List msgpack_object) (xs : List T), 0 ≤ r.m_move_res →
        r.m_current_val = .array elems →
        List.Forall₂ (fun e x => unpack_func e = .ok x) elems xs →
        r.read_array P unpack_func = (.ok xs, r.next P) ∧
        r.read_array_of P unpack_func = (.ok xs, r.next P) ∧
        r.read_array_size = (.ok xs.length, r) ∧
        xs.length = elems.length) ∧
    (∀ P : value_parse,
        (reader_on_array_3_1_2.read_array_of P (unpack_object_int 32)).1 = .ok [3, 1, 2]) := by
  have main : ∀ (T : Type) (P : value_parse)
      (f : msgpack_object → Except ignite_error T) (r : reader)
      (elems : List msgpack_object) (xs : List T), 0 ≤ r.m_move_res →
      r.m_current_val = .array elems → List.Forall₂ (fun e x => f e = .ok x) elems xs →
      r.read_array P f = (.ok xs, r.next P) := by
    intro T P f r elems xs hok hval hF
    have hlt : ¬ r.m_move_res < 0 := not_lt.mpr hok
    have hloop := for_loop_forall₂ elems (fun e x => f e = .ok x) (fun x res => res ++ [x])
      (read_array_body f (.array elems))
      (by
        intro i s a b hget hR
        simp [read_array_body, msgpack_object.array_ptr, msgpack_object.via_array,
          List.getD_eq_getElem?_getD, hget, hR])
      elems.length 0 [] xs (by simp) (by simpa using hF)
    rw [foldl_emplace_back] at hloop
    simp [reader.read_array, reader.read_array_size, reader.check_data_in_stream, hlt, hval,
      unpack_array_size, hloop]
  refine ⟨?_, ?_⟩
  · intro T P f r elems xs hok hval hF
    have hlt : ¬ r.m_move_res < 0 := not_lt.mpr hok
    refine ⟨main T P f r elems xs hok hval hF, main T P f r elems xs hok hval hF, ?_,
      hF.length_eq.symm⟩
    simp [reader.read_array_size, reader.check_data_in_stream, hlt, hval, unpack_array_size,
      hF.length_eq]
  · intro P
    have h := main Int P (unpack_object_int 32) reader_on_array_3_1_2 _ [3, 1, 2]
      (by decide) rfl
      (by
        refine List.Forall₂.cons rfl (List.Forall₂.cons rfl (List.Forall₂.cons rfl ?_))
        exact List.Forall₂.nil)
    simp [reader.read_array_of, h]

/-- C4, on the staged array [3, 1, 2] decoded with the int32 decoder. -/
theorem read_array_collects_in_order_witness :
    reader_on_array_3_1_2.read_array sample_parse (unpack_object_int 32)
      = (.ok [3, 1, 2], reader_on_array_3_1_2.next sample_parse) :=
  (read_array_collects_in_order.1 Int sample_parse (unpack_object_int 32) reader_on_array_3_1_2
    [.integer 8 false 3, .integer 8 false 1, .integer 8 false 2] [3, 1, 2] (by decide) rfl
    (List.Forall₂.cons rfl (List.Forall₂.cons rfl (List.Forall₂.cons rfl List.Forall₂.nil)))).1

/-- The state captured by a raw pair handler that does not throw, after `read_map_raw` over a
staged map: the handler has been applied to the pairs in encoded order; the reader has advanced
once. -/
theorem read_map_raw_trace {σ : Type} (P : value_parse)
    (handler : msgpack_object_kv → σ → Except ignite_error Unit × σ) (r : reader)
    (pairs : List msgpack_object_kv) (s : σ) (hok : 0 ≤ r.m_move_res)
    (hval : r.m_current_val = .map pairs) (hnf : ∀ kv s1, (handler kv s1).1 = .ok ()) :
    r.read_map_raw P handler s
      = (.ok (), r.next P, pairs.foldl (fun s1 kv => (handler kv s1).2) s) := by
  have hlt : ¬ r.m_move_res < 0 := not_lt.mpr hok
  have hloop := for_loop_forall₂ pairs Eq (fun kv s1 => (handler kv s1).2)
    (fun i s1 => handler ((msgpack_object.map pairs).map_ptr i) s1)
    (by
      intro i s1 a b hget hR
      subst hR
      have h1 : (msgpack_object.map pairs).map_ptr i = a := by
        simp [msgpack_object.map_ptr, msgpack_object.via_map, List.getD_eq_getElem?_getD, hget]
      beta_reduce
      rw [h1]
      exact Prod.ext (hnf a s1) rfl)
    pairs.length 0 s pairs (by simp) (by simp [List.forall₂_eq_eq_eq])
  simp [reader.read_map_raw, reader.read_map_size, reader.check_data_in_stream, hlt, hval,
    msgpack_object.type, msgpack_object.via_map, hloop]

/-- The state captured by an array visitor that does not throw, after `read_array_raw` over a
staged array: the visitor has been applied to (0, e_0), (1, e_1), ... in this order; the reader
has advanced once. -/
theorem read_array_raw_trace {σ : Type} (P : value_parse)
    (read_func : Nat → msgpack_object → σ → Except ignite_error Unit × σ) (r : reader)
    (elems : List msgpack_object) (s : σ) (hok : 0 ≤ r.m_move_res)
    (hval : r.m_current_val = .array elems) (hnf : ∀ i e s1, (read_func i e s1).1 = .ok ()) :
    r.read_array_raw P read_func s
      = (.ok (), r.next P, elems.enum.foldl (fun s1 p => (read_func p.1 p.2 s1).2) s) := by
  have hlt : ¬ r.m_move_res < 0 := not_lt.mpr hok
  have hloop := for_loop_forall₂ elems.enum Eq (fun p s1 => (read_func p.1 p.2 s1).2)
    (fun i s1 => read_func i ((msgpack_object.array elems).array_ptr i) s1)
    (by
      intro i s1 a b hget hR
      subst hR
      rw [List.getElem?_enum] at hget
      cases hq : elems[i]? with
      | none => rw [hq] at hget; simp at hget
      | some e =>
        rw [hq] at hget
        simp only [Option.map_some', Option.some.injEq] at hget
        subst hget
        have h1 : (msgpack_object.array elems).array_ptr i = e := by
          simp [msgpack_object.array_ptr, msgpack_object.via_array, List.getD_eq_getElem?_getD,
            hq]
        beta_reduce
        rw [h1]
        exact Prod.ext (hnf i e s1) rfl)
    elems.length 0 s elems.enum (by simp [List.enum_length])
    (by simp [List.forall₂_eq_eq_eq])
  simp [reader.read_array_raw, reader.read_array_size, reader.check_data_in_stream, hlt, hval,
    unpack_array_size, hloop]

/-- The state captured by a typed pair handler that does not throw, after `read_map<K, V>` over
a staged map whose keys and values decode: the handler has been applied to the decoded pairs in
encoded order; the reader has advanced once. -/
theorem read_map_trace {K V σ : Type} (P : value_parse)
    (unpack_key : msgpack_object → Except ignite_error K)
    (unpack_val : msgpack_object → Except ignite_error V)
    (handler : K → V → σ → Except ignite_error Unit × σ) (r : reader)
    (pairs : List msgpack_object_kv) (decoded : List (K × V)) (s : σ)
    (hok : 0 ≤ r.m_move_res) (hval : r.m_current_val = .map pairs)
    (hdec : List.Forall₂ (fun p d => unpack_key p.key = .ok d.1 ∧ unpack_val p.val = .ok d.2)
      pairs decoded)
    (hnf : ∀ k v s1, (handler k v s1).1 = .ok ()) :
    r.read_map P unpack_key unpack_val handler s
      = (.ok (), r.next P, decoded.foldl (fun s1 d => (handler d.1 d.2 s1).2) s) := by
  have hlt : ¬ r.m_move_res < 0 := not_lt.mpr hok
  have hloop := for_loop_forall₂ pairs
    (fun p d => unpack_key p.key = .ok d.1 ∧ unpack_val p.val = .ok d.2)
    (fun (d : K × V) s1 => (handler d.1 d.2 s1).2)
    (read_map_body unpack_key unpack_val handler (.map pairs))
    (by
      intro i s1 a b hget hR
      have h1 : (msgpack_object.map pairs).map_ptr i = a := by
        simp [msgpack_object.map_ptr, msgpack_object.via_map, List.getD_eq_getElem?_getD, hget]
      simp only [read_map_body, h1, hR.1, hR.2]
      exact Prod.ext (hnf b.1 b.2 s1) rfl)
    pairs.length 0 s decoded (by simp) (by simpa using hdec)
  simp [reader.read_map, reader.read_map_size, reader.check_data_in_stream, hlt, hval,
    msgpack_object.type, msgpack_object.via_map, hloop]

/-- C5: for a reader staged (status ok) on a map with the encoded pairs `pairs` whose keys and
values decode as K and V, to `decoded`, and a handler that does not throw, `read_map<K, V>` runs
the handler on `decoded[0]`, `decoded[1]`, ... in this order, once per encoded pair; a handler
that records its calls ends with exactly `decoded`, as many calls as encoded pairs, nothing
re-sorted and nothing deduplicated: on the map 1 ↦ 10, 1 ↦ 20, whose key is repeated, the
handler is called twice, with the decoded key and the first value, then with the decoded key and
the second value. -/
theorem read_map_calls_handler_per_pair :
    (∀ (K V σ : Type) (P : value_parse) (unpack_key : msgpack_object → Except ignite_error K)
        (unpack_val : msgpack_object → Except ignite_error V)
        (handler : K → V → σ → Except ignite_error Unit × σ) (r : reader)
        (pairs : List msgpack_object_kv) (decoded : List (K × V)) (s : σ),
        0 ≤ r.m_move_res → r.m_current_val = .map pairs →
        List.Forall₂ (fun p d => unpack_key p.key = .ok d.1 ∧ unpack_val p.val = .ok d.2)
          pairs decoded →
        (∀ k v s1, (handler k v s1).1 = .ok ()) →
        r.read_map P unpack_key unpack_val handler s
          = (.ok (), r.next P, decoded.foldl (fun s1 d => (handler d.1 d.2 s1).2) s) ∧
        r.read_map P unpack_key unpack_val record_pair [] = (.ok (), r.next P, decoded) ∧
        decoded.length = pairs.length) ∧
    (∀ (K V : Type) (P : value_parse) (unpack_key : msgpack_object → Except ignite_error K)
        (unpack_val : msgpack_object → Except ignite_error V) (k : K) (a b : V),
        unpack_key (.integer 8 false 1) = .ok k → unpack_val (.integer 8 false 10) = .ok a →
        unpack_val (.integer 8 false 20) = .ok b →
        reader_on_repeated_key.read_map P unpack_key unpack_val record_pair []
          = (.ok (), reader_on_repeated_key.next P, [(k, a), (k, b)])) := by
  have hrec : ∀ (K V : Type) (decoded : List (K × V)) (calls : List (K × V)),
      decoded.foldl (fun s1 d => (record_pair d.1 d.2 s1).2) calls = calls ++ decoded := by
    intro K V decoded
    induction decoded with
    | nil => intro calls; simp
    | cons d ds ih =>
      intro calls
      rw [List.foldl_cons, ih]
      simp [record_pair]
  have hrecord : ∀ (K V : Type) (P : value_parse)
      (uk : msgpack_object → Except ignite_error K)
      (uv : msgpack_object → Except ignite_error V) (r : reader)
      (pairs : List msgpack_object_kv) (decoded : List (K × V)), 0 ≤ r.m_move_res →
      r.m_current_val = .map pairs →
      List.Forall₂ (fun p d => uk p.key = .ok d.1 ∧ uv p.val = .ok d.2) pairs decoded →
      r.read_map P uk uv record_pair [] = (.ok (), r.next P, decoded) := by
    intro K V P uk uv r pairs decoded hok hval hdec
    rw [read_map_trace P uk uv record_pair r pairs decoded [] hok hval hdec
      (fun _ _ _ => rfl), hrec]
    simp
  refine ⟨?_, ?_⟩
  · intro K V σ P uk uv handler r pairs decoded s hok hval hdec hnf
    exact ⟨read_map_trace P uk uv handler r pairs decoded s hok hval hdec hnf,
      hrecord K V P uk uv r pairs decoded hok hval hdec, hdec.length_eq.symm⟩
  · intro K V P uk uv k a b hk ha hb
    exact hrecord K V P uk uv reader_on_repeated_key _ [(k, a), (k, b)] (by decide) rfl
      (List.Forall₂.cons ⟨hk, ha⟩ (List.Forall₂.cons ⟨hk, hb⟩ List.Forall₂.nil))

/-- C5, on the staged map 1 ↦ 10, 1 ↦ 20 with the recording handler, decoding keys and values
as int32, and keys as int16 with values as int64. -/
theorem read_map_calls_handler_per_pair_witness :
    reader_on_repeated_key.read_map sample_parse (unpack_object_int 32) (unpack_object_int 32)
        record_pair []
      = (.ok (), reader_on_repeated_key.next sample_parse, [(1, 10), (1, 20)]) ∧
    reader_on_repeated_key.read_map sample_parse (unpack_object_int 16) (unpack_object_int 64)
        record_pair []
      = (.ok (), reader_on_repeated_key.next sample_parse, [(1, 10), (1, 20)]) :=
  ⟨(read_map_calls_handler_per_pair.1 Int Int (List (Int × Int)) sample_parse
      (unpack_object_int 32) (unpack_object_int 32) record_pair reader_on_repeated_key
      [.mk (.integer 8 false 1) (.integer 8 false 10),
       .mk (.integer 8 false 1) (.integer 8 false 20)]
      [(1, 10), (1, 20)] [] (by decide) rfl
      (List.Forall₂.cons ⟨rfl, rfl⟩ (List.Forall₂.cons ⟨rfl, rfl⟩ List.Forall₂.nil))
      (fun _ _ _ => rfl)).2.1,
   read_map_calls_handler_per_pair.2 Int Int sample_parse (unpack_object_int 16)
      (unpack_object_int 64) 1 10 20 rfl rfl rfl⟩

/-- C6: for a reader staged (status ok) on an array, resp. a map, of any number of elements and
a decoder that decodes every element, resp. a visitor or handler that does not throw,
`read_array`, `read_array_raw`, `read_map_raw` and `read_map` succeed and leave the reader in the
state a single `skip` reaches from the starting state. -/
theorem aggregate_reads_advance_once :
    (∀ (T : Type) (P : value_parse) (unpack_func : msgpack_object → Except ignite_error T)
        (r : reader) (elems : List msgpack_object), 0 ≤ r.m_move_res →
        r.m_current_val = .array elems → (∀ e ∈ elems, ∃ x, unpack_func e = .ok x) →
        (r.read_array P unpack_func).2 = (r.skip P).2 ∧
        ∃ xs, (r.read_array P unpack_func).1 = .ok xs) ∧
    (∀ (σ : Type) (P : value_parse)
        (read_func : Nat → msgpack_object → σ → Except ignite_error Unit × σ) (r : reader)
        (elems : List msgpack_object) (s : σ), 0 ≤ r.m_move_res →
        r.m_current_val = .array elems → (∀ i e s1, (read_func i e s1).1 = .ok ()) →
        (r.read_array_raw P read_func s).2.1 = (r.skip P).2 ∧
        (r.read_array_raw P read_func s).1 = .ok ()) ∧
    (∀ (σ : Type) (P : value_parse)
        (handler : msgpack_object_kv → σ → Except ignite_error Unit × σ) (r : reader)
        (pairs : List msgpack_object_kv) (s : σ), 0 ≤ r.m_move_res →
        r.m_current_val = .map pairs → (∀ kv s1, (handler kv s1).1 = .ok ()) →
        (r.read_map_raw P handler s).2.1 = (r.skip P).2 ∧
        (r.read_map_raw P handler s).1 = .ok ()) ∧
    (∀ (K V σ : Type) (P : value_parse) (unpack_key : msgpack_object → Except ignite_error K)
        (unpack_val : msgpack_object → Except ignite_error V)
        (handler : K → V → σ → Except ignite_error Unit × σ) (r : reader)
        (pairs : List msgpack_object_kv) (s : σ), 0 ≤ r.m_move_res →
        r.m_current_val = .map pairs →
        (∀ p ∈ pairs, (∃ k, unpack_key p.key = .ok k) ∧ ∃ v, unpack_val p.val = .ok v) →
        (∀ k v s1, (handler k v s1).1 = .ok ()) →
        (r.read_map P unpack_key unpack_val handler s).2.1 = (r.skip P).2 ∧
        (r.read_map P unpack_key unpack_val handler s).1 = .ok ()) := by
  refine ⟨?_, ?_, ?_, ?_⟩
  · intro T P f r elems hok hval hdec
    have hlt : ¬ r.m_move_res < 0 := not_lt.mpr hok
    have hk := for_loop_ok elems.length (read_array_body f (.array elems))
      (by
        intro i res hi
        have h1 : (msgpack_object.array elems).array_ptr i = elems[i] := by
          simp [msgpack_object.array_ptr, msgpack_object.via_array, List.getD_eq_getElem, hi]
        obtain ⟨x, hx⟩ := hdec elems[i] (List.getElem_mem hi)
        simp [read_array_body, h1, hx])
      elems.length 0 [] (by simp)
    simp only [reader.read_array, reader.read_array_size, reader.check_data_in_stream, hlt,
      hval, unpack_array_size, if_false, reader.skip]
    rcases hres : for_loop (read_array_body f (.array elems)) elems.length 0 [] with ⟨res, xs⟩
    rw [hres] at hk
    cases res with
    | error e => simp at hk
    | ok u => exact ⟨rfl, xs, rfl⟩
  · intro σ P v r elems s hok hval hnf
    rw [read_array_raw_trace P v r elems s hok hval hnf]
    exact ⟨rfl, rfl⟩
  · intro σ P h r pairs s hok hval hnf
    rw [read_map_raw_trace P h r pairs s hok hval hnf]
    exact ⟨rfl, rfl⟩
  · intro K V σ P uk uv h r pairs s hok hval hdec hnf
    have hlt : ¬ r.m_move_res < 0 := not_lt.mpr hok
    have hk := for_loop_ok pairs.length (read_map_body uk uv h (.map pairs))
      (by
        intro i s1 hi
        have h1 : (msgpack_object.map pairs).map_ptr i = pairs[i] := by
          simp [msgpack_object.map_ptr, msgpack_object.via_map, List.getD_eq_getElem, hi]
        obtain ⟨⟨k, hk1⟩, w, hw⟩ := hdec pairs[i] (List.getElem_mem hi)
        simp [read_map_body, h1, hk1, hw, hnf])
      pairs.length 0 s (by simp)
    simp only [reader.read_map, reader.read_map_size, reader.check_data_in_stream, hlt, hval,
      msgpack_object.type, msgpack_object.via_map, ne_eq, not_true_eq_false, if_false,
      reader.skip]
    rcases hres : for_loop (read_map_body uk uv h (.map pairs)) pairs.length 0 s with ⟨res, s2⟩
    rw [hres] at hk
    cases res with
    | error e => simp at hk
    | ok u => exact ⟨rfl, rfl⟩

/-- C6, on the staged empty array, the staged array [3, 1, 2] and the staged map 1 ↦ 10,
1 ↦ 20. -/
theorem aggregate_reads_advance_once_witness :
    (reader_on_empty_array.read_array sample_parse (unpack_object_int 32)).2
      = (reader_on_empty_array.skip sample_parse).2 ∧
    (reader_on_array_3_1_2.read_array_raw sample_parse record_element []).2.1
      = (reader_on_array_3_1_2.skip sample_parse).2 ∧
    (reader_on_repeated_key.read_map_raw sample_parse record_kv []).2.1
      = (reader_on_repeated_key.skip sample_parse).2 ∧
    (reader_on_repeated_key.read_map sample_parse (unpack_object_int 32) (unpack_object_int 32)
        record_pair []).2.1
      = (reader_on_repeated_key.skip sample_parse).2 :=
  ⟨(aggregate_reads_advance_once.1 Int sample_parse (unpack_object_int 32)
      reader_on_empty_array [] (by decide) rfl (by simp)).1,
   (aggregate_reads_advance_once.2.1 _ sample_parse record_element reader_on_array_3_1_2
      [.integer 8 false 3, .integer 8 false 1, .integer 8 false 2] [] (by decide) rfl
      (fun _ _ _ => rfl)).1,
   (aggregate_reads_advance_once.2.2.1 _ sample_parse record_kv reader_on_repeated_key
      [.mk (.integer 8 false 1) (.integer 8 false 10),
       .mk (.integer 8 false 1) (.integer 8 false 20)] [] (by decide) rfl
      (fun _ _ => rfl)).1,
   (aggregate_reads_advance_once.2.2.2 Int Int _ sample_parse (unpack_object_int 32)
      (unpack_object_int 32) record_pair reader_on_repeated_key
      [.mk (.integer 8 false 1) (.integer 8 false 10),
       .mk (.integer 8 false 1) (.integer 8 false 20)] [] (by decide) rfl
      (by
        intro p hp
        simp only [List.mem_cons, List.mem_singleton, List.not_mem_nil, or_false] at hp
        rcases hp with rfl | rfl
        · exact ⟨⟨1, rfl⟩, 10, rfl⟩
        · exact ⟨⟨1, rfl⟩, 20, rfl⟩)
      (fun _ _ _ => rfl)).1⟩

/-- C7: for a reader with status ok, `read_map_size` throws exactly when the staged tag is not
Map, the error then being "The value in stream is not a Map", a TypeMismatch; on a staged map it
returns the number of encoded pairs. -/
theorem read_map_size_type_check (r : reader) (hok : 0 ≤ r.m_move_res) :
    ((r.read_map_size).1 = .error NotAMap ↔ r.m_current_val.type ≠ .MSGPACK_OBJECT_MAP) ∧
    ((∃ e, (r.read_map_size).1 = .error e) ↔ r.m_current_val.type ≠ .MSGPACK_OBJECT_MAP) ∧
    NotAMap.cls = .TypeMismatch ∧
    NotAMap.message = "The value in stream is not a Map" ∧
    (∀ pairs, r.m_current_val = .map pairs → r.read_map_size = (.ok pairs.length, r)) := by
  have hlt : ¬ r.m_move_res < 0 := not_lt.mpr hok
  refine ⟨?_, ?_, rfl, rfl, ?_⟩
  · by_cases hty : r.m_current_val.type = .MSGPACK_OBJECT_MAP <;>
      simp [reader.read_map_size, reader.check_data_in_stream, hlt, hty]
  · by_cases hty : r.m_current_val.type = .MSGPACK_OBJECT_MAP <;>
      simp [reader.read_map_size, reader.check_data_in_stream, hlt, hty]
  · intro pairs hval
    simp [reader.read_map_size, reader.check_data_in_stream, hlt, hval, msgpack_object.type,
      msgpack_object.via_map]

/-- C7, on the staged array [3, 1, 2] (not a map) and on the staged map 1 ↦ 10, 1 ↦ 20. -/
theorem read_map_size_type_check_witness :
    (reader_on_array_3_1_2.read_map_size).1 = .error NotAMap ∧
    reader_on_repeated_key.read_map_size = (.ok 2, reader_on_repeated_key) :=
  ⟨(read_map_size_type_check reader_on_array_3_1_2 (by decide)).1.mpr (by decide),
   (read_map_size_type_check reader_on_repeated_key (by decide)).2.2.2.2 _ rfl⟩

/-- C8: `read_array_size` and `read_map_size` leave the reader as it was, whether they return or
throw, so position and staged value are unchanged and a `read_map_raw` / `read_array_raw` that
follows does what it does on the original reader: on a staged map (array) it hands the handler
(visitor) every pair (element), in encoded order. On the staged record of four pairs
`read_map_size` returns 4, the following `read_map_raw` hands the handler exactly these four pairs
in encoded order, and the value under `name` decodes to the text "alice". -/
theorem size_queries_do_not_advance :
    (∀ r : reader, (r.read_array_size).2 = r ∧ (r.read_map_size).2 = r ∧
        (r.read_array_size).2.position = r.position ∧
        (r.read_map_size).2.position = r.position ∧
        (r.read_array_size).2.m_current_val = r.m_current_val ∧
        (r.read_map_size).2.m_current_val = r.m_current_val) ∧
    (∀ (σ : Type) (P : value_parse)
        (handler : msgpack_object_kv → σ → Except ignite_error Unit × σ) (r : reader) (s : σ),
        (r.read_map_size).2.read_map_raw P handler s = r.read_map_raw P handler s) ∧
    (∀ (σ : Type) (P : value_parse)
        (read_func : Nat → msgpack_object → σ → Except ignite_error Unit × σ) (r : reader)
        (s : σ),
        (r.read_array_size).2.read_array_raw P read_func s = r.read_array_raw P read_func s) ∧
    (∀ (P : value_parse) (r : reader) (pairs : List msgpack_object_kv), 0 ≤ r.m_move_res →
        r.m_current_val = .map pairs →
        r.read_map_size = (.ok pairs.length, r) ∧
        (r.read_map_size).2.read_map_raw P record_kv [] = (.ok (), r.next P, pairs)) ∧
    (∀ (P : value_parse) (r : reader) (elems : List msgpack_object), 0 ≤ r.m_move_res →
        r.m_current_val = .array elems →
        r.read_array_size = (.ok elems.length, r) ∧
        (r.read_array_size).2.read_array_raw P record_element []
          = (.ok (), r.next P, elems.enum)) ∧
    (∀ P : value_parse,
        reader_on_record.read_map_size = (.ok 4, reader_on_record) ∧
        (reader_on_record.read_map_size).2.read_map_raw P record_kv []
          = (.ok (), reader_on_record.next P, record_pairs) ∧
        (record_pairs.map
            (fun kv => (unpack_object_string ascii_text kv.key, kv.val.type)))
          = [(.ok "id", .MSGPACK_OBJECT_EXT), (.ok "name", .MSGPACK_OBJECT_STR),
             (.ok "age", .MSGPACK_OBJECT_INTEGER), (.ok "tags", .MSGPACK_OBJECT_ARRAY)] ∧
        unpack_object_string ascii_text (record_pairs.getD 1 (.mk .nil .nil)).val
          = .ok "alice") := by
  have hframe : ∀ r : reader, (r.read_array_size).2 = r ∧ (r.read_map_size).2 = r := by
    intro r
    constructor
    · simp only [reader.read_array_size]
      cases r.check_data_in_stream with
      | error e => rfl
      | ok u => cases unpack_array_size r.m_current_val <;> rfl
    · simp only [reader.read_map_size]
      cases r.check_data_in_stream with
      | error e => rfl
      | ok u => by_cases h : r.m_current_val.type = .MSGPACK_OBJECT_MAP <;> simp [h]
  have hmap : ∀ (P : value_parse) (r : reader) (pairs : List msgpack_object_kv),
      0 ≤ r.m_move_res → r.m_current_val = .map pairs →
      r.read_map_size = (.ok pairs.length, r) ∧
      (r.read_map_size).2.read_map_raw P record_kv [] = (.ok (), r.next P, pairs) := by
    intro P r pairs hok hval
    have hlt : ¬ r.m_move_res < 0 := not_lt.mpr hok
    refine ⟨?_, ?_⟩
    · simp [reader.read_map_size, reader.check_data_in_stream, hlt, hval, msgpack_object.type,
        msgpack_object.via_map]
    · rw [(hframe r).2, read_map_raw_trace P record_kv r pairs [] hok hval (fun _ _ => rfl)]
      simp only [record_kv]
      rw [foldl_emplace_back]
      simp
  refine ⟨?_, ?_, ?_, hmap, ?_, ?_⟩
  · intro r
    refine ⟨(hframe r).1, (hframe r).2, ?_, ?_, ?_, ?_⟩
    · rw [(hframe r).1]
    · rw [(hframe r).2]
    · rw [(hframe r).1]
    · rw [(hframe r).2]
  · intro σ P h r s
    rw [(hframe r).2]
  · intro σ P v r s
    rw [(hframe r).1]
  · intro P r elems hok hval
    have hlt : ¬ r.m_move_res < 0 := not_lt.mpr hok
    refine ⟨?_, ?_⟩
    · simp [reader.read_array_size, reader.check_data_in_stream, hlt, hval, unpack_array_size]
    · rw [(hframe r).1,
        read_array_raw_trace P record_element r elems [] hok hval (fun _ _ _ => rfl)]
      simp only [record_element, Prod.mk.eta]
      rw [foldl_emplace_back]
      simp
  · intro P
    refine ⟨(hmap P reader_on_record record_pairs (by decide) rfl).1,
      (hmap P reader_on_record record_pairs (by decide) rfl).2, rfl, rfl⟩

/-- C8, on the staged record of four pairs and on the staged array [3, 1, 2]. -/
theorem size_queries_do_not_advance_witness :
    (reader_on_record.read_map_size = (.ok 4, reader_on_record) ∧
      (reader_on_record.read_map_size).2.read_map_raw sample_parse record_kv []
        = (.ok (), reader_on_record.next sample_parse, record_pairs)) ∧
    (reader_on_array_3_1_2.read_array_size = (.ok 3, reader_on_array_3_1_2) ∧
      (reader_on_array_3_1_2.read_array_size).2.read_array_raw sample_parse record_element []
        = (.ok (), reader_on_array_3_1_2.next sample_parse,
            [(0, .integer 8 false 3), (1, .integer 8 false 1), (2, .integer 8 false 2)])) :=
  ⟨size_queries_do_not_advance.2.2.2.1 sample_parse reader_on_record record_pairs
      (by decide) rfl,
   size_queries_do_not_advance.2.2.2.2.1 sample_parse reader_on_array_3_1_2
      [.integer 8 false 3, .integer 8 false 1, .integer 8 false 2] (by decide) rfl⟩

/-! ### The cursor -/

/-- Every operation leaves the reader as it was or in the state `next` reaches. -/
theorem reader_op_step_cases (P : value_parse) (r r1 : reader) (h : reader_op_step P r r1) :
    r1 = r ∨ r1 = r.next P := by
  cases h with
  | read_object u =>
    simp only [reader.read_object]
    cases r.check_data_in_stream with
    | error e => exact Or.inl rfl
    | ok _ => cases u r.m_current_val <;> simp
  | try_read_object u =>
    simp only [reader.try_read_object]
    cases r.check_data_in_stream with
    | error e => exact Or.inl rfl
    | ok _ =>
      cases u r.m_current_val with
      | error e => exact Or.inl rfl
      | ok o => cases o <;> simp
  | read_object_nullable u =>
    simp only [reader.read_object_nullable, reader.try_read_nil, reader.read_object]
    cases hc : r.check_data_in_stream with
    | error e => exact Or.inl rfl
    | ok _ =>
      by_cases hty : r.m_current_val.type = .MSGPACK_OBJECT_NIL
      · simp [hty]
      · cases hu : u r.m_current_val <;> simp [hty, hu, hc]
  | read_object_or_default u d =>
    simp only [reader.read_object_or_default, reader.try_read_nil, reader.read_object]
    cases hc : r.check_data_in_stream with
    | error e => exact Or.inl rfl
    | ok _ =>
      by_cases hty : r.m_current_val.type = .MSGPACK_OBJECT_NIL
      · simp [hty]
      · cases hu : u r.m_current_val <;> simp [hty, hu, hc]
  | try_read_nil =>
    simp only [reader.try_read_nil]
    cases r.check_data_in_stream with
    | error e => exact Or.inl rfl
    | ok _ => by_cases hty : r.m_current_val.type = .MSGPACK_OBJECT_NIL <;> simp [hty]
  | read_map_size =>
    simp only [reader.read_map_size]
    cases r.check_data_in_stream with
    | error e => exact Or.inl rfl
    | ok _ => by_cases hty : r.m_current_val.type = .MSGPACK_OBJECT_MAP <;> simp [hty]
  | read_map_raw hd s =>
    simp only [reader.read_map_raw, reader.read_map_size]
    cases r.check_data_in_stream with
    | error e => exact Or.inl rfl
    | ok _ =>
      by_cases hty : r.m_current_val.type = .MSGPACK_OBJECT_MAP
      · simp only [hty, ne_eq, not_true_eq_false, if_false]
        rcases for_loop (fun i s1 => hd (r.m_current_val.map_ptr i) s1)
          r.m_current_val.via_map.length 0 s with ⟨res, s2⟩
        cases res <;> simp
      · simp [hty]
  | read_map uk uv hd s =>
    simp only [reader.read_map, reader.read_map_size]
    cases r.check_data_in_stream with
    | error e => exact Or.inl rfl
    | ok _ =>
      by_cases hty : r.m_current_val.type = .MSGPACK_OBJECT_MAP
      · simp only [hty, ne_eq, not_true_eq_false, if_false]
        rcases for_loop (read_map_body uk uv hd r.m_current_val)
          r.m_current_val.via_map.length 0 s with ⟨res, s2⟩
        cases res <;> simp
      · simp [hty]
  | read_array_size =>
    simp only [reader.read_array_size]
    cases r.check_data_in_stream with
    | error e => exact Or.inl rfl
    | ok _ => cases unpack_array_size r.m_current_val <;> simp
  | read_array_raw f s =>
    simp only [reader.read_array_raw, reader.read_array_size]
    cases r.check_data_in_stream with
    | error e => exact Or.inl rfl
    | ok _ =>
      cases unpack_array_size r.m_current_val with
      | error e => exact Or.inl rfl
      | ok size =>
        simp only []
        rcases for_loop (fun i s1 => f i (r.m_current_val.array_ptr i) s1) size 0 s
          with ⟨res, s2⟩
        cases res <;> simp
  | read_array f =>
    simp only [reader.read_array, reader.read_array_size]
    cases r.check_data_in_stream with
    | error e => exact Or.inl rfl
    | ok _ =>
      cases unpack_array_size r.m_current_val with
      | error e => exact Or.inl rfl
      | ok size =>
        simp only []
        rcases for_loop (read_array_body f r.m_current_val) size 0 [] with ⟨res, xs⟩
        cases res <;> simp
  | read_binary =>
    simp only [reader.read_binary]
    cases unpack_binary r.m_current_val <;> simp
  | skip => exact Or.inr rfl

/-- The method `next` moves the offset to the recorded next offset and keeps the buffer. -/
theorem next_offset (P : value_parse) (r : reader) :
    (r.next P).m_offset = r.m_offset_next ∧ (r.next P).m_buffer = r.m_buffer := by
  simp only [reader.next, reader.stage]
  split_ifs <;> first | exact ⟨rfl, rfl⟩ | (split <;> exact ⟨rfl, rfl⟩)

/-- After `next`, with a parser that stays in bounds, the next offset is not before the
offset. -/
theorem next_cursor (P : value_parse) (hP : parse_in_bounds P) (r : reader) :
    (r.next P).m_offset ≤ (r.next P).m_offset_next := by
  simp only [reader.next, reader.stage]
  split_ifs
  · exact le_refl _
  · rename_i h1 h2
    split
    · rename_i v n hv
      exact le_of_lt (hP _ _ v n hv).1
    · exact le_refl _
  · exact le_refl _
  · split
    · rename_i v n hv
      exact le_of_lt (hP _ _ v n hv).1
    · exact le_refl _

/-- Along any sequence of operations the position does not decrease and the next offset stays
at or after the offset. -/
theorem reader_op_steps_monotone (P : value_parse) (hP : parse_in_bounds P) (r r1 : reader)
    (hr : r.m_offset ≤ r.m_offset_next) (h : Relation.ReflTransGen (reader_op_step P) r r1) :
    r.m_offset ≤ r1.m_offset ∧ r1.m_offset ≤ r1.m_offset_next := by
  induction h with
  | refl => exact ⟨le_refl _, hr⟩
  | tail _ hstep ih =>
    rcases reader_op_step_cases P _ _ hstep with heq | heq
    · rw [heq]; exact ih
    · rw [heq]
      exact ⟨le_trans ih.1 (by rw [(next_offset P _).1]; exact ih.2), next_cursor P hP _⟩

/-- The sample parser stays in bounds. -/
theorem sample_parse_in_bounds : parse_in_bounds sample_parse := by
  intro buffer off v n h
  simp only [sample_parse] at h
  split at h
  · exact absurd h (by simp)
  · rename_i b rest hdrop
    have hlen : (buffer.drop off).length = rest.length + 1 := by rw [hdrop]; rfl
    rw [List.length_drop] at hlen
    split_ifs at h <;> simp only [Option.some.injEq, Prod.mk.injEq] at h <;> omega

/-- A constructed reader agrees with the parser. -/
theorem construct_staged_by (P : value_parse) (hP : parse_in_bounds P) (buffer : List Nat) :
    (reader.construct P buffer).staged_by P ∧ (reader.construct P buffer).m_offset = 0 ∧
    (reader.construct P buffer).m_buffer = buffer := by
  have hnone : buffer.length = 0 → P buffer 0 = none := by
    intro hlen
    cases hp : P buffer 0 with
    | none => rfl
    | some q =>
      obtain ⟨v, n⟩ := q
      have := hP buffer 0 v n hp
      omega
  by_cases hlen : buffer.length = 0
  · simp only [reader.construct, reader.staged_by, reader.stage, hlen, if_true, status.code]
    simp [hnone hlen]
  · simp only [reader.construct, reader.staged_by, reader.stage, hlen, if_false, status.code]
    cases hp : P buffer 0 with
    | none => simp [hp, status.code]
    | some q => simp [hp]

/-- After `next` on a reader with status ok, the reader agrees with the parser. -/
theorem next_staged_by (P : value_parse) (hP : parse_in_bounds P) (r : reader)
    (hok : 0 ≤ r.m_move_res) : (r.next P).staged_by P := by
  have hlt : ¬ r.m_move_res < 0 := not_lt.mpr hok
  by_cases hend : r.m_offset_next = r.m_buffer.length
  · have hnone : P r.m_buffer r.m_offset_next = none := by
      cases hp : P r.m_buffer r.m_offset_next with
      | none => rfl
      | some q =>
        obtain ⟨v, n⟩ := q
        have := hP _ _ v n hp
        omega
    simp [reader.next, reader.staged_by, hend, status.code]
    rw [← hend]; exact hnone
  · cases hp : P r.m_buffer r.m_offset_next with
    | none => simp [reader.next, reader.staged_by, reader.stage, hend, hlt, hp, status.code]
    | some q =>
      simp [reader.next, reader.staged_by, reader.stage, hend, hlt, hp, hok]

/-- Skipping `N` values that parse, from a reader that agrees with the parser, moves the position
by the sum of their encoded lengths. -/
theorem skip_positions (P : value_parse) (hP : parse_in_bounds P) :
    ∀ (N : Nat) (r : reader) (lens : List Nat), r.staged_by P →
      encoded_lengths P r.m_buffer N r.m_offset = some lens →
      ((fun r1 : reader => (r1.skip P).2)^[N] r).m_offset = r.m_offset + lens.sum := by
  intro N
  induction N with
  | zero =>
    intro r lens _ hl
    simp only [encoded_lengths, Option.some.injEq] at hl
    subst hl
    simp
  | succ N ih =>
    intro r lens hs hl
    simp only [encoded_lengths] at hl
    cases hp : P r.m_buffer r.m_offset with
    | none => rw [hp] at hl; simp at hl
    | some q =>
      obtain ⟨v, n⟩ := q
      rw [hp] at hl
      simp only [] at hl
      have hok : 0 ≤ r.m_move_res := by
        by_contra hneg
        have := hs.1 (not_le.mp hneg)
        rw [hp] at this
        simp at this
      have hnext : r.m_offset_next = n := by
        have := hs.2 hok
        rw [hp] at this
        simp only [Option.some.injEq, Prod.mk.injEq] at this
        exact this.2.symm
      have hbound := (hP _ _ v n hp).1
      cases hrec : encoded_lengths P r.m_buffer N n with
      | none => rw [hrec] at hl; simp at hl
      | some rest =>
        rw [hrec] at hl
        simp only [Option.some.injEq] at hl
        subst hl
        rw [Function.iterate_succ_apply]
        have hoff : ((r.skip P).2).m_offset = n := by
          simp only [reader.skip]; rw [(next_offset P r).1, hnext]
        have hbuf : ((r.skip P).2).m_buffer = r.m_buffer := by
          simp only [reader.skip]; exact (next_offset P r).2
        have hih := ih (r.skip P).2 rest (next_staged_by P hP r hok)
          (by rw [hbuf, hoff]; exact hrec)
        rw [hih, hoff, List.sum_cons]
        omega

/-- On a reader whose last move failed (`m_move_res < 0`) every operation that starts with
`check_data_in_stream` throws "No more data in stream", leaves the reader as it was and calls no
handler. -/
theorem checked_reads_fail (P : value_parse) (r : reader) (h : r.m_move_res < 0) :
    (∀ (T : Type) (u : msgpack_object → Except ignite_error T),
        r.read_object P u = (.error StreamExhausted, r)) ∧
    (∀ (T : Type) (u : msgpack_object → Except ignite_error (Option T)),
        r.try_read_object P u = (.error StreamExhausted, r)) ∧
    (∀ (T : Type) (u : msgpack_object → Except ignite_error T),
        r.read_object_nullable P u = (.error StreamExhausted, r)) ∧
    (∀ (T : Type) (u : msgpack_object → Except ignite_error T) (d : T),
        r.read_object_or_default P u d = (.error StreamExhausted, r)) ∧
    r.try_read_nil P = (.error StreamExhausted, r) ∧
    r.read_map_size = (.error StreamExhausted, r) ∧
    r.read_array_size = (.error StreamExhausted, r) ∧
    (∀ (σ : Type) (hd : msgpack_object_kv → σ → Except ignite_error Unit × σ) (s : σ),
        r.read_map_raw P hd s = (.error StreamExhausted, r, s)) ∧
    (∀ (K V σ : Type) (uk : msgpack_object → Except ignite_error K)
        (uv : msgpack_object → Except ignite_error V)
        (hd : K → V → σ → Except ignite_error Unit × σ) (s : σ),
        r.read_map P uk uv hd s = (.error StreamExhausted, r, s)) ∧
    (∀ (σ : Type) (f : Nat → msgpack_object → σ → Except ignite_error Unit × σ) (s : σ),
        r.read_array_raw P f s = (.error StreamExhausted, r, s)) ∧
    (∀ (T : Type) (f : msgpack_object → Except ignite_error T),
        r.read_array P f = (.error StreamExhausted, r)) := by
  refine ⟨?_, ?_, ?_, ?_, ?_, ?_, ?_, ?_, ?_, ?_, ?_⟩
  · intro T u; simp [reader.read_object, reader.check_data_in_stream, h]
  · intro T u; simp [reader.try_read_object, reader.check_data_in_stream, h]
  · intro T u
    simp [reader.read_object_nullable, reader.try_read_nil, reader.check_data_in_stream, h]
  · intro T u d
    simp [reader.read_object_or_default, reader.try_read_nil, reader.check_data_in_stream, h]
  · simp [reader.try_read_nil, reader.check_data_in_stream, h]
  · simp [reader.read_map_size, reader.check_data_in_stream, h]
  · simp [reader.read_array_size, reader.check_data_in_stream, h]
  · intro σ hd s
    simp [reader.read_map_raw, reader.read_map_size, reader.check_data_in_stream, h]
  · intro K V σ uk uv hd s
    simp [reader.read_map, reader.read_map_size, reader.check_data_in_stream, h]
  · intro σ f s
    simp [reader.read_array_raw, reader.read_array_size, reader.check_data_in_stream, h]
  · intro T f
    simp [reader.read_array, reader.read_array_size, reader.check_data_in_stream, h]

/-- An operation that consumes a value is called on a reader with status ok and leaves the state
`next` reaches; one that consumes nothing leaves the reader as it was, or, called on a reader
whose status is not ok, in the state `next` reaches from there. -/
theorem reader_op_consumes_cases (P : value_parse) (r r1 : reader) (b : Bool)
    (h : reader_op_consumes P r b r1) :
    (b = true → 0 ≤ r.m_move_res ∧ r1 = r.next P) ∧
    (b = false → r1 = r ∨ (r.m_move_res < 0 ∧ r1 = r.next P)) := by
  by_cases hlt : r.m_move_res < 0
  · have hnok : ¬ 0 ≤ r.m_move_res := not_le.mpr hlt
    have hc := checked_reads_fail P r hlt
    cases h with
    | read_object u => rw [hc.1]; simp [returned]
    | try_read_object u => rw [hc.2.1]; simp [returned_value]
    | read_object_nullable u => rw [hc.2.2.1]; simp [returned]
    | read_object_or_default u d => rw [hc.2.2.2.1]; simp [returned]
    | try_read_nil => rw [hc.2.2.2.2.1]; simp [returned_true]
    | read_map_size => rw [hc.2.2.2.2.2.1]; simp
    | read_array_size => rw [hc.2.2.2.2.2.2.1]; simp
    | read_map_raw hd s => rw [hc.2.2.2.2.2.2.2.1]; simp [returned]
    | read_map uk uv hd s => rw [hc.2.2.2.2.2.2.2.2.1]; simp [returned]
    | read_array_raw f s => rw [hc.2.2.2.2.2.2.2.2.2.1]; simp [returned]
    | read_array f => rw [hc.2.2.2.2.2.2.2.2.2.2]; simp [returned]
    | read_binary =>
      simp only [reader.read_binary]
      cases unpack_binary r.m_current_val <;> simp [returned, hnok, hlt]
    | skip => simp [reader.skip, hnok, hlt]
  · have hok : 0 ≤ r.m_move_res := not_lt.mp hlt
    cases h with
    | read_object u =>
      simp only [reader.read_object, reader.check_data_in_stream, hlt, if_false]
      cases u r.m_current_val <;> simp [returned, hok]
    | try_read_object u =>
      simp only [reader.try_read_object, reader.check_data_in_stream, hlt, if_false]
      cases u r.m_current_val with
      | error e => simp [returned_value]
      | ok o => cases o <;> simp [returned_value, hok]
    | read_object_nullable u =>
      simp only [reader.read_object_nullable, reader.try_read_nil, reader.read_object,
        reader.check_data_in_stream, hlt, if_false]
      by_cases hty : r.m_current_val.type = .MSGPACK_OBJECT_NIL
      · simp [hty, returned, hok]
      · cases hu : u r.m_current_val <;> simp [hty, hu, returned, hok, hlt]
    | read_object_or_default u d =>
      simp only [reader.read_object_or_default, reader.try_read_nil, reader.read_object,
        reader.check_data_in_stream, hlt, if_false]
      by_cases hty : r.m_current_val.type = .MSGPACK_OBJECT_NIL
      · simp [hty, returned, hok]
      · cases hu : u r.m_current_val <;> simp [hty, hu, returned, hok, hlt]
    | try_read_nil =>
      simp only [reader.try_read_nil, reader.check_data_in_stream, hlt, if_false]
      by_cases hty : r.m_current_val.type = .MSGPACK_OBJECT_NIL <;>
        simp [hty, returned_true, hok]
    | read_map_size =>
      simp only [reader.read_map_size, reader.check_data_in_stream, hlt, if_false]
      by_cases hty : r.m_current_val.type = .MSGPACK_OBJECT_MAP <;> simp [hty]
    | read_array_size =>
      simp only [reader.read_array_size, reader.check_data_in_stream, hlt, if_false]
      cases unpack_array_size r.m_current_val <;> simp
    | read_map_raw hd s =>
      simp only [reader.read_map_raw, reader.read_map_size, reader.check_data_in_stream, hlt,
        if_false]
      by_cases hty : r.m_current_val.type = .MSGPACK_OBJECT_MAP
      · simp only [hty, ne_eq, not_true_eq_false, if_false]
        rcases for_loop (fun i s1 => hd (r.m_current_val.map_ptr i) s1)
          r.m_current_val.via_map.length 0 s with ⟨res, s2⟩
        cases res <;> simp [returned, hok]
      · simp [hty, returned]
    | read_map uk uv hd s =>
      simp only [reader.read_map, reader.read_map_size, reader.check_data_in_stream, hlt,
        if_false]
      by_cases hty : r.m_current_val.type = .MSGPACK_OBJECT_MAP
      · simp only [hty, ne_eq, not_true_eq_false, if_false]
        rcases for_loop (read_map_body uk uv hd r.m_current_val)
          r.m_current_val.via_map.length 0 s with ⟨res, s2⟩
        cases res <;> simp [returned, hok]
      · simp [hty, returned]
    | read_array_raw f s =>
      simp only [reader.read_array_raw, reader.read_array_size, reader.check_data_in_stream,
        hlt, if_false]
      cases unpack_array_size r.m_current_val with
      | error e => simp [returned]
      | ok size =>
        simp only []
        rcases for_loop (fun i s1 => f i (r.m_current_val.array_ptr i) s1) size 0 s
          with ⟨res, s2⟩
        cases res <;> simp [returned, hok]
    | read_array f =>
      simp only [reader.read_array, reader.read_array_size, reader.check_data_in_stream, hlt,
        if_false]
      cases unpack_array_size r.m_current_val with
      | error e => simp [returned]
      | ok size =>
        simp only []
        rcases for_loop (read_array_body f r.m_current_val) size 0 [] with ⟨res, xs⟩
        cases res <;> simp [returned, hok]
    | read_binary =>
      simp only [reader.read_binary]
      cases unpack_binary r.m_current_val <;> simp [returned, hok]
    | skip => simp [reader.skip, hok]

/-- The encoded lengths of the first `N + 1` values are those of the first `N` values followed
by the length of the value the parser finds after them. -/
theorem encoded_lengths_snoc (P : value_parse) (hP : parse_in_bounds P) (buffer : List Nat) :
    ∀ (N off : Nat) (lens : List Nat) (v : msgpack_object) (nx : Nat),
      encoded_lengths P buffer N off = some lens →
      P buffer (off + lens.sum) = some (v, nx) →
      encoded_lengths P buffer (N + 1) off = some (lens ++ [nx - (off + lens.sum)]) := by
  intro N
  induction N with
  | zero =>
    intro off lens v nx hl hp
    simp only [encoded_lengths, Option.some.injEq] at hl
    subst hl
    simp only [List.sum_nil, Nat.add_zero] at hp
    simp [encoded_lengths, hp]
  | succ N ih =>
    intro off lens v nx hl hp
    rw [encoded_lengths] at hl
    cases hq : P buffer off with
    | none => rw [hq] at hl; simp at hl
    | some q =>
      obtain ⟨v1, n1⟩ := q
      rw [hq] at hl
      simp only [] at hl
      have hb := (hP _ _ v1 n1 hq).1
      cases hrec : encoded_lengths P buffer N n1 with
      | none => rw [hrec] at hl; simp at hl
      | some rest =>
        rw [hrec] at hl
        simp only [Option.some.injEq] at hl
        subst hl
        have hsum : off + ((n1 - off) :: rest).sum = n1 + rest.sum := by
          rw [List.sum_cons]; omega
        rw [hsum] at hp ⊢
        have hih := ih n1 rest v nx hrec hp
        rw [encoded_lengths, hq]
        simp only []
        rw [hih]
        simp

/-- After `next` on a reader with status ok, a failed status comes with a next offset equal to
the offset. -/
theorem next_settled (P : value_parse) (r : reader) (hok : 0 ≤ r.m_move_res) :
    (r.next P).m_move_res < 0 → (r.next P).m_offset_next = (r.next P).m_offset := by
  have hlt : ¬ r.m_move_res < 0 := not_lt.mpr hok
  by_cases hend : r.m_offset_next = r.m_buffer.length
  · simp [reader.next, hend, status.code]
  · cases hp : P r.m_buffer r.m_offset_next with
    | none => simp [reader.next, reader.stage, hend, hlt, hp, status.code]
    | some q => simp [reader.next, reader.stage, hend, hlt, hp]

/-- On a reader whose status is not ok and whose next offset is its offset, `next` keeps the
offsets, the buffer and a failed status. -/
theorem next_of_failed (P : value_parse) (r : reader) (h : r.m_move_res < 0)
    (hoff : r.m_offset_next = r.m_offset) :
    (r.next P).m_move_res < 0 ∧ (r.next P).m_offset = r.m_offset ∧
    (r.next P).m_offset_next = r.m_offset ∧ (r.next P).m_buffer = r.m_buffer := by
  by_cases hend : r.m_offset = r.m_buffer.length
  · simp [reader.next, hoff, hend, status.code]
  · simp [reader.next, hoff, hend, h]

/-- An operation keeps the reader right after the values consumed so far, one more when it
consumes a value. -/
theorem stands_after_step (P : value_parse) (hP : parse_in_bounds P) (buffer : List Nat)
    (N : Nat) (r r1 : reader) (b : Bool) (hr : r.stands_after P buffer N)
    (hstep : reader_op_consumes P r b r1) :
    r1.stands_after P buffer (if b then N + 1 else N) := by
  obtain ⟨hst, hset, hbuf, lens, hlens, hoff⟩ := hr
  have hc := reader_op_consumes_cases P r r1 b hstep
  cases b with
  | true =>
    obtain ⟨hok, heq⟩ := hc.1 rfl
    have hp := hst.2 hok
    rw [hbuf, hoff] at hp
    have hb := (hP _ _ _ _ hp).1
    have hsn := encoded_lengths_snoc P hP buffer N 0 lens r.m_current_val r.m_offset_next
      hlens (by rw [Nat.zero_add]; exact hp)
    rw [heq]
    refine ⟨next_staged_by P hP r hok, next_settled P r hok, ?_, _, hsn, ?_⟩
    · rw [(next_offset P r).2, hbuf]
    · rw [(next_offset P r).1, List.sum_append]
      simp only [List.sum_cons, List.sum_nil]
      omega
  | false =>
    rcases hc.2 rfl with heq | ⟨hlt, heq⟩
    · rw [heq]
      exact ⟨hst, hset, hbuf, lens, hlens, hoff⟩
    · obtain ⟨h1, h2, h3, h4⟩ := next_of_failed P r hlt (hset hlt)
      rw [heq]
      refine ⟨⟨?_, ?_⟩, ?_, ?_, lens, hlens, ?_⟩
      · intro _
        rw [h4, h2]
        exact hst.1 hlt
      · intro hge
        exact absurd h1 (not_lt.mpr hge)
      · intro _
        rw [h3, h2]
      · rw [h4, hbuf]
      · rw [h2, hoff]

/-- A sequence of operations in which `N` calls consumed a value leads from a reader right after
`M` values to a reader right after `M + N` values. -/
theorem stands_after_run (P : value_parse) (hP : parse_in_bounds P) (buffer : List Nat)
    (M : Nat) (r0 : reader) (h0 : r0.stands_after P buffer M) :
    ∀ (N : Nat) (r : reader), reader_run P r0 N r → r.stands_after P buffer (M + N) := by
  intro N r hrun
  induction hrun with
  | start => exact h0
  | consume _ hstep ih => exact stands_after_step P hP buffer _ _ _ true ih hstep
  | keep _ hstep ih => exact stands_after_step P hP buffer _ _ _ false ih hstep

/-- A constructed reader stands at the start of its buffer. -/
theorem construct_stands_after (P : value_parse) (hP : parse_in_bounds P) (buffer : List Nat) :
    (reader.construct P buffer).stands_after P buffer 0 := by
  obtain ⟨hs, h0, hb⟩ := construct_staged_by P hP buffer
  refine ⟨hs, ?_, hb, [], rfl, by rw [h0]; rfl⟩
  intro hneg
  rw [h0]
  by_cases hlen : buffer.length = 0
  · simp [reader.construct, hlen, status.code]
  · cases hp : P buffer 0 with
    | none => simp [reader.construct, reader.stage, hlen, hp, status.code]
    | some q => simp [reader.construct, reader.stage, hlen, hp, status.code] at hneg

/-- Every operation call is a call that consumes a value or one that does not, so every sequence
of operations is a run with some number of consumed values. -/
theorem reader_run_of_steps (P : value_parse) (r0 r : reader)
    (h : Relation.ReflTransGen (reader_op_step P) r0 r) : ∃ N, reader_run P r0 N r := by
  have hone : ∀ r1 r2 : reader, reader_op_step P r1 r2 → ∃ b, reader_op_consumes P r1 b r2 := by
    intro r1 r2 hstep
    cases hstep with
    | read_object u => exact ⟨_, reader_op_consumes.read_object u r1⟩
    | try_read_object u => exact ⟨_, reader_op_consumes.try_read_object u r1⟩
    | read_object_nullable u => exact ⟨_, reader_op_consumes.read_object_nullable u r1⟩
    | read_object_or_default u d => exact ⟨_, reader_op_consumes.read_object_or_default u d r1⟩
    | try_read_nil => exact ⟨_, reader_op_consumes.try_read_nil r1⟩
    | read_map_size => exact ⟨_, reader_op_consumes.read_map_size r1⟩
    | read_map_raw hd s => exact ⟨_, reader_op_consumes.read_map_raw hd s r1⟩
    | read_map uk uv hd s => exact ⟨_, reader_op_consumes.read_map uk uv hd s r1⟩
    | read_array_size => exact ⟨_, reader_op_consumes.read_array_size r1⟩
    | read_array_raw f s => exact ⟨_, reader_op_consumes.read_array_raw f s r1⟩
    | read_array f => exact ⟨_, reader_op_consumes.read_array f r1⟩
    | read_binary => exact ⟨_, reader_op_consumes.read_binary r1⟩
    | skip => exact ⟨_, reader_op_consumes.skip r1⟩
  induction h with
  | refl => exact ⟨0, reader_run.start r0⟩
  | tail _ hstep ih =>
    obtain ⟨N, hrun⟩ := ih
    obtain ⟨b, hb⟩ := hone _ _ hstep
    cases b with
    | true => exact ⟨N + 1, reader_run.consume hrun hb⟩
    | false => exact ⟨N, reader_run.keep hrun hb⟩

/-- C9: with a value-tag parser that stays in bounds, along any sequence of operations
(`read_object`, `try_read_object`, `read_object_nullable`, `read_object_or_default`,
`try_read_nil`, `read_map_size`, `read_map_raw`, `read_map`, `read_array_size`, `read_array_raw`,
`read_array`, `read_binary`, `skip`; returning or throwing) started on a reader whose next offset
is not before its offset, as on every constructed reader, `position()` never decreases from one
operation to the next; an operation that consumes the staged value is called with status ok and
leaves the state one `next()` reaches, one that consumes nothing leaves the position where it
was; and after any sequence of operations on a constructed reader in which `N` calls consumed a
value (every sequence is one, for some `N`), the first `N` values of the buffer parse and
`position()` is the sum of their encoded byte lengths; so it is after `N` skips. -/
theorem position_is_monotone :
    (∀ (P : value_parse) (r r1 r2 : reader), parse_in_bounds P →
        r.m_offset ≤ r.m_offset_next →
        Relation.ReflTransGen (reader_op_step P) r r1 → reader_op_step P r1 r2 →
        r.position ≤ r1.position ∧ r1.position ≤ r2.position) ∧
    (∀ (P : value_parse) (buffer : List Nat) (r1 r2 : reader), parse_in_bounds P →
        Relation.ReflTransGen (reader_op_step P) (reader.construct P buffer) r1 →
        reader_op_step P r1 r2 →
        (reader.construct P buffer).position = 0 ∧ r1.position ≤ r2.position) ∧
    (∀ (P : value_parse) (buffer : List Nat) (N : Nat) (lens : List Nat), parse_in_bounds P →
        encoded_lengths P buffer N 0 = some lens →
        ((fun r : reader => (r.skip P).2)^[N] (reader.construct P buffer)).position
          = lens.sum) ∧
    (∀ (P : value_parse) (r r1 : reader) (b : Bool), reader_op_consumes P r b r1 →
        (b = true → 0 ≤ r.m_move_res ∧ r1 = r.next P ∧ r1.position = r.m_offset_next) ∧
        (b = false → r1 = r ∨ (r.m_move_res < 0 ∧ r1 = r.next P))) ∧
    (∀ (P : value_parse) (buffer : List Nat) (N : Nat) (r r1 : reader), parse_in_bounds P →
        reader_run P (reader.construct P buffer) N r → reader_op_consumes P r false r1 →
        r1.position = r.position) ∧
    (∀ (P : value_parse) (buffer : List Nat) (N : Nat) (r : reader), parse_in_bounds P →
        reader_run P (reader.construct P buffer) N r →
        ∃ lens, encoded_lengths P buffer N 0 = some lens ∧ lens.length = N ∧
          r.position = lens.sum) ∧
    (∀ (P : value_parse) (buffer : List Nat) (r : reader), parse_in_bounds P →
        Relation.ReflTransGen (reader_op_step P) (reader.construct P buffer) r →
        ∃ N lens, reader_run P (reader.construct P buffer) N r ∧
          encoded_lengths P buffer N 0 = some lens ∧ r.position = lens.sum) := by
  have hmono : ∀ (P : value_parse) (r r1 r2 : reader), parse_in_bounds P →
      r.m_offset ≤ r.m_offset_next →
      Relation.ReflTransGen (reader_op_step P) r r1 → reader_op_step P r1 r2 →
      r.position ≤ r1.position ∧ r1.position ≤ r2.position := by
    intro P r r1 r2 hP hr h1 h2
    have ha := reader_op_steps_monotone P hP r r1 hr h1
    have hb := reader_op_steps_monotone P hP r1 r2 ha.2
      (Relation.ReflTransGen.single h2)
    exact ⟨ha.1, hb.1⟩
  have hlen : ∀ (P : value_parse) (buffer : List Nat) (N off : Nat) (lens : List Nat),
      encoded_lengths P buffer N off = some lens → lens.length = N := by
    intro P buffer N
    induction N with
    | zero =>
      intro off lens hl
      simp only [encoded_lengths, Option.some.injEq] at hl
      subst hl
      rfl
    | succ N ih =>
      intro off lens hl
      rw [encoded_lengths] at hl
      cases hq : P buffer off with
      | none => rw [hq] at hl; simp at hl
      | some q =>
        rw [hq] at hl
        simp only [] at hl
        cases hrec : encoded_lengths P buffer N q.2 with
        | none => rw [hrec] at hl; simp at hl
        | some rest =>
          rw [hrec] at hl
          simp only [Option.some.injEq] at hl
          subst hl
          simp [ih q.2 rest hrec]
  have hrun : ∀ (P : value_parse) (buffer : List Nat) (N : Nat) (r : reader),
      parse_in_bounds P → reader_run P (reader.construct P buffer) N r →
      r.stands_after P buffer N := by
    intro P buffer N r hP h
    have := stands_after_run P hP buffer 0 _ (construct_stands_after P hP buffer) N r h
    rwa [Nat.zero_add] at this
  refine ⟨hmono, ?_, ?_, ?_, ?_, ?_, ?_⟩
  · intro P buffer r1 r2 hP h1 h2
    have h0 := (construct_staged_by P hP buffer).2.1
    exact ⟨h0, (hmono P _ r1 r2 hP (by rw [h0]; exact Nat.zero_le _) h1 h2).2⟩
  · intro P buffer N lens hP hl
    obtain ⟨hs, h0, hb⟩ := construct_staged_by P hP buffer
    have h := skip_positions P hP N (reader.construct P buffer) lens hs
      (by rw [hb, h0]; exact hl)
    simp only [reader.position]
    rw [h, h0, Nat.zero_add]
  · intro P r r1 b h
    have hc := reader_op_consumes_cases P r r1 b h
    refine ⟨?_, hc.2⟩
    intro hb
    obtain ⟨hok, heq⟩ := hc.1 hb
    exact ⟨hok, heq, by rw [heq, reader.position, (next_offset P r).1]⟩
  · intro P buffer N r r1 hP h hstep
    obtain ⟨_, _, _, lens, hl, hoff⟩ := hrun P buffer N r hP h
    obtain ⟨_, _, _, lens1, hl1, hoff1⟩ := hrun P buffer N r1 hP (reader_run.keep h hstep)
    rw [hl] at hl1
    simp only [Option.some.injEq] at hl1
    subst hl1
    simp only [reader.position]
    rw [hoff, hoff1]
  · intro P buffer N r hP h
    obtain ⟨_, _, _, lens, hl, hoff⟩ := hrun P buffer N r hP h
    exact ⟨lens, hl, hlen P buffer N 0 lens hl, hoff⟩
  · intro P buffer r hP h
    obtain ⟨N, hN⟩ := reader_run_of_steps P _ r h
    obtain ⟨_, _, _, lens, hl, hoff⟩ := hrun P buffer N r hP hN
    exact ⟨N, lens, hN, hl, hoff⟩

/-- C9, on the buffer holding the string "hi", the integer 5 and nil: a failed `read_map_size`
and a `skip` do not move the position back, three skips move it to 3 + 1 + 1, and after
`try_read_object<int32_t>` (no value), `read_object<std::string>`, `read_map_size` (throws) and
`read_object<int32_t>`, of which two consumed a value, the position is the sum of the encoded
lengths of the first two values, 3 + 1. -/
theorem position_is_monotone_witness :
    ((reader.construct sample_parse [0xa2, 0x68, 0x69, 5, 0xc0]).position
        ≤ (reader.construct sample_parse [0xa2, 0x68, 0x69, 5, 0xc0]).read_map_size.2.position ∧
      (reader.construct sample_parse [0xa2, 0x68, 0x69, 5, 0xc0]).read_map_size.2.position
        ≤ ((reader.construct sample_parse
            [0xa2, 0x68, 0x69, 5, 0xc0]).read_map_size.2.skip sample_parse).2.position) ∧
    ((fun r : reader => (r.skip sample_parse).2)^[3]
        (reader.construct sample_parse [0xa2, 0x68, 0x69, 5, 0xc0])).position
      = [3, 1, 1].sum ∧
    (encoded_lengths sample_parse [0xa2, 0x68, 0x69, 5, 0xc0] 2 0 = some [3, 1] ∧
      ∃ lens, encoded_lengths sample_parse [0xa2, 0x68, 0x69, 5, 0xc0] 2 0 = some lens ∧
        lens.length = 2 ∧
        (((((reader.construct sample_parse [0xa2, 0x68, 0x69, 5, 0xc0]).try_read_object sample_parse (try_unpack_object_int 32)).2.read_object sample_parse
          (unpack_object_string ascii_text)).2.read_map_size).2.read_object sample_parse
          (unpack_object_int 32)).2.position = lens.sum) :=
  ⟨position_is_monotone.1 sample_parse _ _ _ sample_parse_in_bounds (by decide)
      (Relation.ReflTransGen.single (reader_op_step.read_map_size _))
      (reader_op_step.skip _),
   position_is_monotone.2.2.1 sample_parse [0xa2, 0x68, 0x69, 5, 0xc0] 3 [3, 1, 1]
      sample_parse_in_bounds (by rfl),
   rfl,
   position_is_monotone.2.2.2.2.2.1 sample_parse [0xa2, 0x68, 0x69, 5, 0xc0] 2 _
      sample_parse_in_bounds
      (reader_run.consume
        (reader_run.keep
          (reader_run.consume
            (reader_run.keep (reader_run.start _)
              (reader_op_consumes.try_read_object (try_unpack_object_int 32) _))
            (reader_op_consumes.read_object (unpack_object_string ascii_text) _))
          (reader_op_consumes.read_map_size _))
        (reader_op_consumes.read_object (unpack_object_int 32) _))⟩

/-! ### Readers without a staged value -/

/-- C10, as stated, fails on the buffer 0xa5 0x61 (a string of five bytes cut after the first):
the parser finds no value, and the error of `read_object<int32_t>` on the reader constructed over
this buffer is not of the class MalformedStream. -/
theorem truncated_buffer_read_is_not_malformed_stream :
    sample_parse [0xa5, 0x61] 0 = none ∧
    ¬ ∃ e, ((reader.construct sample_parse [0xa5, 0x61]).read_object sample_parse
        (unpack_object_int 32)).1 = .error e ∧ e.cls = .MalformedStream := by
  refine ⟨rfl, ?_⟩
  rintro ⟨e, he, hcls⟩
  have h : ((reader.construct sample_parse [0xa5, 0x61]).read_object sample_parse
      (unpack_object_int 32)).1 = .error StreamExhausted := rfl
  rw [h] at he
  cases he
  exact absurd hcls (by decide)

/-- C10, amended: a reader constructed over an empty buffer, and likewise one constructed over a
buffer in which the parser finds no first value (a value cut short), has a failed last move
(`m_move_res < 0`); on it `read_object`, `try_read_object`, `read_object_nullable`,
`read_object_or_default`, `try_read_nil`, `read_map_size`, `read_array_size`, `read_map_raw`,
`read_map`, `read_array_raw` and `read_array` all throw the one error "No more data in stream"
(StreamExhausted), leave the reader as it was and call no handler. -/
theorem reads_fail_on_empty_or_truncated_buffer (P : value_parse) (buffer : List Nat)
    (hbuf : buffer = [] ∨ P buffer 0 = none) :
    (reader.construct P buffer).m_move_res < 0 ∧
    (∀ (T : Type) (u : msgpack_object → Except ignite_error T),
        (reader.construct P buffer).read_object P u
          = (.error StreamExhausted, reader.construct P buffer)) ∧
    (∀ (T : Type) (u : msgpack_object → Except ignite_error (Option T)),
        (reader.construct P buffer).try_read_object P u
          = (.error StreamExhausted, reader.construct P buffer)) ∧
    (∀ (T : Type) (u : msgpack_object → Except ignite_error T),
        (reader.construct P buffer).read_object_nullable P u
          = (.error StreamExhausted, reader.construct P buffer)) ∧
    (∀ (T : Type) (u : msgpack_object → Except ignite_error T) (d : T),
        (reader.construct P buffer).read_object_or_default P u d
          = (.error StreamExhausted, reader.construct P buffer)) ∧
    (reader.construct P buffer).try_read_nil P
      = (.error StreamExhausted, reader.construct P buffer) ∧
    (reader.construct P buffer).read_map_size
      = (.error StreamExhausted, reader.construct P buffer) ∧
    (reader.construct P buffer).read_array_size
      = (.error StreamExhausted, reader.construct P buffer) ∧
    (∀ (σ : Type) (hd : msgpack_object_kv → σ → Except ignite_error Unit × σ) (s : σ),
        (reader.construct P buffer).read_map_raw P hd s
          = (.error StreamExhausted, reader.construct P buffer, s)) ∧
    (∀ (K V σ : Type) (uk : msgpack_object → Except ignite_error K)
        (uv : msgpack_object → Except ignite_error V)
        (hd : K → V → σ → Except ignite_error Unit × σ) (s : σ),
        (reader.construct P buffer).read_map P uk uv hd s
          = (.error StreamExhausted, reader.construct P buffer, s)) ∧
    (∀ (σ : Type) (f : Nat → msgpack_object → σ → Except ignite_error Unit × σ) (s : σ),
        (reader.construct P buffer).read_array_raw P f s
          = (.error StreamExhausted, reader.construct P buffer, s)) ∧
    (∀ (T : Type) (f : msgpack_object → Except ignite_error T),
        (reader.construct P buffer).read_array P f
          = (.error StreamExhausted, reader.construct P buffer)) := by
  have hres : (reader.construct P buffer).m_move_res < 0 := by
    by_cases hlen : buffer.length = 0
    · simp [reader.construct, hlen, status.code]
    · have hnone : P buffer 0 = none := by
        rcases hbuf with hb | hb
        · exact absurd (by rw [hb]; rfl) hlen
        · exact hb
      simp [reader.construct, reader.stage, hlen, hnone, status.code]
  exact ⟨hres, checked_reads_fail P _ hres⟩

/-- C10 amended, on the empty buffer and on the buffer 0xa5 0x61. -/
theorem reads_fail_on_empty_or_truncated_buffer_witness :
    (reader.construct sample_parse []).read_object sample_parse (unpack_object_int 32)
      = (.error StreamExhausted, reader.construct sample_parse []) ∧
    (reader.construct sample_parse [0xa5, 0x61]).read_object sample_parse
        (unpack_object_int 32)
      = (.error StreamExhausted, reader.construct sample_parse [0xa5, 0x61]) ∧
    (reader.construct sample_parse [0xa5, 0x61]).read_array_size
      = (.error StreamExhausted, reader.construct sample_parse [0xa5, 0x61]) :=
  ⟨(reads_fail_on_empty_or_truncated_buffer sample_parse [] (Or.inl rfl)).2.1 Int
      (unpack_object_int 32),
   (reads_fail_on_empty_or_truncated_buffer sample_parse [0xa5, 0x61] (Or.inr rfl)).2.1 Int
      (unpack_object_int 32),
   (reads_fail_on_empty_or_truncated_buffer sample_parse [0xa5, 0x61]
      (Or.inr rfl)).2.2.2.2.2.2.2.1⟩

/-! ### The try variants, defaults and narrowing -/

/-- C12: on a reader whose status is not ok (`m_move_res < 0`), for every T, `try_read_object<T>`
(so `try_read_int32` too) throws "No more data in stream" (StreamExhausted) instead of returning
no value, and `try_read_nil` throws it instead of returning false; the reader is left as it was,
and the outcome is the same whatever value the reader still holds from before. -/
theorem try_variants_fail_without_staged_value (P : value_parse) (r : reader)
    (h : r.m_move_res < 0) :
    (∀ (T : Type) (try_unpack_object : msgpack_object → Except ignite_error (Option T)),
        r.try_read_object P try_unpack_object = (.error StreamExhausted, r)) ∧
    r.try_read_int32 P = (.error StreamExhausted, r) ∧
    r.try_read_nil P = (.error StreamExhausted, r) ∧
    (∀ (stale : msgpack_object) (T : Type)
        (try_unpack_object : msgpack_object → Except ignite_error (Option T)),
        ({ r with m_current_val := stale }.try_read_object P try_unpack_object).1
          = .error StreamExhausted ∧
        ({ r with m_current_val := stale }.try_read_nil P).1 = .error StreamExhausted) ∧
    StreamExhausted.cls = .StreamExhausted := by
  refine ⟨?_, ?_, ?_, ?_, rfl⟩
  · intro T u
    simp [reader.try_read_object, reader.check_data_in_stream, h]
  · simp [reader.try_read_int32, reader.try_read_object, reader.check_data_in_stream, h]
  · simp [reader.try_read_nil, reader.check_data_in_stream, h]
  · intro stale T u
    constructor
    · simp [reader.try_read_object, reader.check_data_in_stream, h]
    · simp [reader.try_read_nil, reader.check_data_in_stream, h]

/-- C12, on the reader constructed over the empty buffer, and on the reader over the buffer
holding only nil after that nil has been skipped (the stale value is nil). -/
theorem try_variants_fail_without_staged_value_witness :
    (reader.construct sample_parse []).try_read_int32 sample_parse
      = (.error StreamExhausted, reader.construct sample_parse []) ∧
    (((reader.construct sample_parse [0xc0]).skip sample_parse).2.m_current_val = .nil ∧
      ((reader.construct sample_parse [0xc0]).skip sample_parse).2.try_read_nil sample_parse
        = (.error StreamExhausted, ((reader.construct sample_parse [0xc0]).skip sample_parse).2)) :=
  ⟨(try_variants_fail_without_staged_value sample_parse (reader.construct sample_parse [])
      (by decide)).2.1,
   rfl,
   (try_variants_fail_without_staged_value sample_parse
      ((reader.construct sample_parse [0xc0]).skip sample_parse).2 (by decide)).2.2.1⟩

/-- C13: for every reader state, every T and every default `on_nil`,
`read_object_or_default<T>(on_nil)` has the outcome of `read_object_nullable<T>` with nullopt
replaced by `on_nil`, and leaves the reader in the same state; so with status ok it returns
`on_nil` and advances once over a staged nil, and over any other staged value it does what
`read_object<T>` does (same value or same error, same state). -/
theorem read_object_or_default_matches_nullable :
    (∀ (T : Type) (P : value_parse) (unpack_object : msgpack_object → Except ignite_error T)
        (on_nil : T) (r : reader),
        r.read_object_or_default P unpack_object on_nil
          = (Except.map (fun o : Option T => o.getD on_nil)
              (r.read_object_nullable P unpack_object).1,
             (r.read_object_nullable P unpack_object).2)) ∧
    (∀ (T : Type) (P : value_parse) (unpack_object : msgpack_object → Except ignite_error T)
        (on_nil : T) (r : reader), 0 ≤ r.m_move_res → r.m_current_val = .nil →
        r.read_object_or_default P unpack_object on_nil = (.ok on_nil, r.next P) ∧
        r.read_object_nullable P unpack_object = (.ok none, r.next P)) ∧
    (∀ (T : Type) (P : value_parse) (unpack_object : msgpack_object → Except ignite_error T)
        (on_nil : T) (r : reader), 0 ≤ r.m_move_res →
        r.m_current_val.type ≠ .MSGPACK_OBJECT_NIL →
        r.read_object_or_default P unpack_object on_nil = r.read_object P unpack_object) := by
  refine ⟨?_, ?_, ?_⟩
  · intro T P u d r
    simp only [reader.read_object_or_default, reader.read_object_nullable, reader.try_read_nil,
      reader.read_object]
    cases hc : r.check_data_in_stream with
    | error e => rfl
    | ok _ =>
      by_cases hty : r.m_current_val.type = .MSGPACK_OBJECT_NIL
      · simp [hty, Except.map]
      · cases hu : u r.m_current_val <;> simp [hty, hu, hc, Except.map]
  · intro T P u d r hok hnil
    have hlt : ¬ r.m_move_res < 0 := not_lt.mpr hok
    constructor <;>
      simp [reader.read_object_or_default, reader.read_object_nullable, reader.try_read_nil,
        reader.check_data_in_stream, hlt, hnil, msgpack_object.type]
  · intro T P u d r hok hty
    have hlt : ¬ r.m_move_res < 0 := not_lt.mpr hok
    simp [reader.read_object_or_default, reader.try_read_nil, reader.check_data_in_stream, hlt,
      hty]

/-- C13, on the buffers holding nil then 5, and 7 then 9, with the default 42. -/
theorem read_object_or_default_matches_nullable_witness :
    (reader.construct sample_parse [0xc0, 5]).read_object_or_default sample_parse
        (unpack_object_int 32) 42
      = (.ok 42, (reader.construct sample_parse [0xc0, 5]).next sample_parse) ∧
    (reader.construct sample_parse [7, 9]).read_object_or_default sample_parse
        (unpack_object_int 32) 42
      = (reader.construct sample_parse [7, 9]).read_object sample_parse (unpack_object_int 32) :=
  ⟨(read_object_or_default_matches_nullable.2.1 Int sample_parse (unpack_object_int 32) 42
      (reader.construct sample_parse [0xc0, 5]) (by decide) rfl).1,
   read_object_or_default_matches_nullable.2.2 Int sample_parse (unpack_object_int 32) 42
      (reader.construct sample_parse [7, 9]) (by decide) (by decide)⟩

/-- C14: for a reader staged (status ok) on the encoded integer 70000, `read_int16` throws the
overflow error (class NumericOverflow) and leaves the reader as it was, and `read_int32` returns
70000 and advances once; in general, over a staged integer `v`, `read_int16`, `read_int32` and
`read_int64` return exactly `v`, advancing once, when `v` is in the signed range of their width,
and throw the overflow error, without advancing, when it is not. -/
theorem numeric_reads_check_the_range :
    (∀ (P : value_parse) (r : reader) (width : Nat) (signed : Bool), 0 ≤ r.m_move_res →
        r.m_current_val = .integer width signed 70000 →
        r.read_int16 P = (.error Overflow, r) ∧ Overflow.cls = .NumericOverflow ∧
        r.read_int32 P = (.ok 70000, r.next P)) ∧
    (∀ (P : value_parse) (r : reader) (width : Nat) (signed : Bool) (v : Int),
        0 ≤ r.m_move_res → r.m_current_val = .integer width signed v →
        (-32768 ≤ v ∧ v ≤ 32767 → r.read_int16 P = (.ok v, r.next P)) ∧
        (¬ (-32768 ≤ v ∧ v ≤ 32767) → r.read_int16 P = (.error Overflow, r)) ∧
        (-2147483648 ≤ v ∧ v ≤ 2147483647 → r.read_int32 P = (.ok v, r.next P)) ∧
        (¬ (-2147483648 ≤ v ∧ v ≤ 2147483647) → r.read_int32 P = (.error Overflow, r)) ∧
        (-9223372036854775808 ≤ v ∧ v ≤ 9223372036854775807 →
          r.read_int64 P = (.ok v, r.next P)) ∧
        (¬ (-9223372036854775808 ≤ v ∧ v ≤ 9223372036854775807) →
          r.read_int64 P = (.error Overflow, r))) := by
  have hfit : ∀ (w : Nat) (v : Int),
      fits_signed w v = true ↔ -(2 : Int) ^ (w - 1) ≤ v ∧ v < (2 : Int) ^ (w - 1) := by
    intro w v
    simp [fits_signed]
  have hin : ∀ (P : value_parse) (r : reader) (width : Nat) (signed : Bool) (v : Int)
      (w : Nat), 0 ≤ r.m_move_res → r.m_current_val = .integer width signed v →
      fits_signed w v = true → r.read_object P (unpack_object_int w) = (.ok v, r.next P) := by
    intro P r width signed v w hok hval hf
    have hlt : ¬ r.m_move_res < 0 := not_lt.mpr hok
    simp [reader.read_object, reader.check_data_in_stream, hlt, hval, unpack_object_int, hf]
  have hout : ∀ (P : value_parse) (r : reader) (width : Nat) (signed : Bool) (v : Int)
      (w : Nat), 0 ≤ r.m_move_res → r.m_current_val = .integer width signed v →
      ¬ fits_signed w v = true → r.read_object P (unpack_object_int w) = (.error Overflow, r) := by
    intro P r width signed v w hok hval hf
    have hlt : ¬ r.m_move_res < 0 := not_lt.mpr hok
    simp [reader.read_object, reader.check_data_in_stream, hlt, hval, unpack_object_int, hf]
  have h16 : ∀ v : Int, fits_signed 16 v = true ↔ (-32768 ≤ v ∧ v ≤ 32767) := by
    intro v; rw [hfit]; norm_num; omega
  have h32 : ∀ v : Int, fits_signed 32 v = true ↔ (-2147483648 ≤ v ∧ v ≤ 2147483647) := by
    intro v; rw [hfit]; norm_num; omega
  have h64 : ∀ v : Int,
      fits_signed 64 v = true ↔ (-9223372036854775808 ≤ v ∧ v ≤ 9223372036854775807) := by
    intro v; rw [hfit]; norm_num; omega
  refine ⟨?_, ?_⟩
  · intro P r width signed hok hval
    exact ⟨hout P r width signed 70000 16 hok hval (by decide), rfl,
      hin P r width signed 70000 32 hok hval (by decide)⟩
  · intro P r width signed v hok hval
    refine ⟨?_, ?_, ?_, ?_, ?_, ?_⟩
    · intro hv; exact hin P r width signed v 16 hok hval ((h16 v).mpr hv)
    · intro hv; exact hout P r width signed v 16 hok hval (fun hf => hv ((h16 v).mp hf))
    · intro hv; exact hin P r width signed v 32 hok hval ((h32 v).mpr hv)
    · intro hv; exact hout P r width signed v 32 hok hval (fun hf => hv ((h32 v).mp hf))
    · intro hv; exact hin P r width signed v 64 hok hval ((h64 v).mpr hv)
    · intro hv; exact hout P r width signed v 64 hok hval (fun hf => hv ((h64 v).mp hf))

/-- C14, on the reader staged on 70000. -/
theorem numeric_reads_check_the_range_witness :
    reader_on_70000.read_int16 sample_parse = (.error Overflow, reader_on_70000) ∧
    reader_on_70000.read_int32 sample_parse
      = (.ok 70000, reader_on_70000.next sample_parse) ∧
    reader_on_70000.read_int64 sample_parse
      = (.ok 70000, reader_on_70000.next sample_parse) :=
  ⟨(numeric_reads_check_the_range.1 sample_parse reader_on_70000 32 false (by decide) rfl).1,
   (numeric_reads_check_the_range.1 sample_parse reader_on_70000 32 false
      (by decide) rfl).2.2,
   (numeric_reads_check_the_range.2 sample_parse reader_on_70000 32 false 70000
      (by decide) rfl).2.2.2.2.1 (by decide)⟩

/-- C18: for every T and a reader with status ok whose staged value `unpack_object<T>` rejects,
`read_object<T>` throws that error and leaves the reader as it was (same position, same staged
value); a following `read_object<U>` on the reader it left, for a U whose `unpack_object<U>`
decodes the staged value to `x`, returns `x` and advances once. -/
theorem failing_read_object_keeps_cursor :
    ∀ (T U : Type) (P : value_parse) (unpack_t : msgpack_object → Except ignite_error T)
      (unpack_u : msgpack_object → Except ignite_error U) (r : reader) (e : ignite_error),
      0 ≤ r.m_move_res → unpack_t r.m_current_val = .error e →
      r.read_object P unpack_t = (.error e, r) ∧
      (r.read_object P unpack_t).2.position = r.position ∧
      (r.read_object P unpack_t).2.m_current_val = r.m_current_val ∧
      (∀ x : U, unpack_u r.m_current_val = .ok x →
        (r.read_object P unpack_t).2.read_object P unpack_u = (.ok x, r.next P)) := by
  intro T U P ut uu r e hok he
  have hlt : ¬ r.m_move_res < 0 := not_lt.mpr hok
  have h : r.read_object P ut = (.error e, r) := by
    simp [reader.read_object, reader.check_data_in_stream, hlt, he]
  refine ⟨h, by rw [h], by rw [h], ?_⟩
  intro x hx
  rw [h]
  simp [reader.read_object, reader.check_data_in_stream, hlt, hx]

/-- C18, on the buffer holding the string "hi" and then 5: reading an int32 throws and the
string can still be read. -/
theorem failing_read_object_keeps_cursor_witness :
    (reader.construct sample_parse [0xa2, 0x68, 0x69, 5]).read_object sample_parse
        (unpack_object_int 32)
      = (.error WrongType, reader.construct sample_parse [0xa2, 0x68, 0x69, 5]) ∧
    ((reader.construct sample_parse [0xa2, 0x68, 0x69, 5]).read_object sample_parse
        (unpack_object_int 32)).2.read_object sample_parse (unpack_object_string ascii_text)
      = (.ok "hi", (reader.construct sample_parse [0xa2, 0x68, 0x69, 5]).next sample_parse) :=
  ⟨(failing_read_object_keeps_cursor Int String sample_parse (unpack_object_int 32)
      (unpack_object_string ascii_text) (reader.construct sample_parse [0xa2, 0x68, 0x69, 5])
      WrongType (by decide) rfl).1,
   (failing_read_object_keeps_cursor Int String sample_parse (unpack_object_int 32)
      (unpack_object_string ascii_text) (reader.construct sample_parse [0xa2, 0x68, 0x69, 5])
      WrongType (by decide) rfl).2.2.2 "hi" rfl⟩

/-! ### Traversals that throw -/

/-- A loop of `m + n` iterations is the loop of the first `m` iterations followed, unless it
threw, by the loop of the `n` iterations left. -/
theorem for_loop_append {σ : Type} (body : Nat → σ → Except ignite_error Unit × σ) :
    ∀ (m n k : Nat) (s : σ),
      for_loop body (m + n) k s
        = (match for_loop body m k s with
          | (.error e, s1) => (.error e, s1)
          | (.ok _, s1) => for_loop body n (k + m) s1) := by
  intro m
  induction m with
  | zero =>
    intro n k s
    simp [for_loop]
  | succ m ih =>
    intro n k s
    have hsucc : m + 1 + n = (m + n) + 1 := by omega
    rw [hsucc]
    simp only [for_loop]
    rcases body k s with ⟨res, s1⟩
    cases res with
    | error e => rfl
    | ok u =>
      simp only []
      rw [ih n (k + 1) s1]
      have hk : k + 1 + m = k + (m + 1) := by omega
      rw [hk]

/-- The loop over the indices of `l` whose body at `j` is the call `act` on `l[j]` is the calls
of `act` on the items of `l`, in order, up to the first that throws. -/
theorem for_loop_eq_call_in_order {α σ : Type} (l : List α)
    (act : α → σ → Except ignite_error Unit × σ)
    (body : Nat → σ → Except ignite_error Unit × σ)
    (hbody : ∀ (j : Nat) (s : σ) (a : α), l[j]? = some a → body j s = act a s) :
    ∀ (n k : Nat) (s : σ), k + n = l.length →
      for_loop body n k s = call_in_order act (l.drop k) s := by
  intro n
  induction n with
  | zero =>
    intro k s hlen
    have hnil : l.drop k = [] := List.drop_eq_nil_of_le (by omega)
    rw [hnil]
    rfl
  | succ n ih =>
    intro k s hlen
    have hk : k < l.length := by omega
    rw [List.drop_eq_getElem_cons hk]
    simp only [for_loop, call_in_order, hbody k s _ (List.getElem?_eq_getElem hk)]
    rcases act l[k] s with ⟨res, s1⟩
    cases res with
    | error e => rfl
    | ok u => exact ih (k + 1) s1 (by omega)

/-- The calls on `l1 ++ l2` are the calls on `l1` followed, unless one threw, by the calls
on `l2`. -/
theorem call_in_order_append {α σ : Type} (act : α → σ → Except ignite_error Unit × σ) :
    ∀ (l1 l2 : List α) (s : σ),
      call_in_order act (l1 ++ l2) s
        = (match call_in_order act l1 s with
          | (.error e, s1) => (.error e, s1)
          | (.ok _, s1) => call_in_order act l2 s1) := by
  intro l1
  induction l1 with
  | nil => intro l2 s; rfl
  | cons a t ih =>
    intro l2 s
    simp only [List.cons_append, call_in_order]
    rcases act a s with ⟨res, s1⟩
    cases res with
    | error e => rfl
    | ok u => exact ih l2 s1

/-- When the calls on the items before the index `i` return, leading to the state `s_i`, and the
call on the item `i` throws in that state, the calls on the whole list throw that error and end
in the state the throwing call left: no item after `i` is called. -/
theorem call_in_order_fails_at {α σ : Type} (act : α → σ → Except ignite_error Unit × σ)
    (l : List α) (i : Nat) (hi : i < l.length) (s s_i s2 : σ) (e : ignite_error)
    (hpre : call_in_order act (l.take i) s = (.ok (), s_i))
    (hfail : act l[i] s_i = (.error e, s2)) :
    call_in_order act l s = (.error e, s2) := by
  have hl : l.take i ++ l[i] :: l.drop (i + 1) = l := by
    rw [← List.drop_eq_getElem_cons hi, List.take_append_drop]
  have h := call_in_order_append act (l.take i) (l[i] :: l.drop (i + 1)) s
  rw [hl, hpre] at h
  rw [h]
  simp only [call_in_order, hfail]

/-- When the calls on a list throw, there is an index `i` such that the calls on the items
before `i` returned and the call on the item `i` threw that error, in the state they led to,
leaving the final state. -/
theorem call_in_order_error_index {α σ : Type} (act : α → σ → Except ignite_error Unit × σ) :
    ∀ (l : List α) (s s2 : σ) (e : ignite_error), call_in_order act l s = (.error e, s2) →
      ∃ (i : Nat) (hi : i < l.length) (s_i : σ),
        call_in_order act (l.take i) s = (.ok (), s_i) ∧ act l[i] s_i = (.error e, s2) := by
  intro l
  induction l with
  | nil =>
    intro s s2 e h
    simp [call_in_order] at h
  | cons a t ih =>
    intro s s2 e h
    simp only [call_in_order] at h
    rcases hact : act a s with ⟨res, s1⟩
    rw [hact] at h
    cases res with
    | error e1 =>
      simp only [Prod.mk.injEq, Except.error.injEq] at h
      refine ⟨0, by simp, s, rfl, ?_⟩
      simp only [List.getElem_cons_zero, hact, h.1, h.2]
    | ok u =>
      simp only [] at h
      obtain ⟨i, hi, s_i, hpre, hfail⟩ := ih s1 s2 e h
      refine ⟨i + 1, by simp only [List.length_cons]; omega, s_i, ?_, ?_⟩
      · simp only [List.take_succ_cons, call_in_order, hact]
        exact hpre
      · simpa using hfail

/-- On a reader staged (status ok) on a map, `read_map_raw` is the calls of the handler on the
pairs in encoded order, up to the first that throws, and then the advance when none threw. -/
theorem read_map_raw_eq_calls {σ : Type} (P : value_parse)
    (h : msgpack_object_kv → σ → Except ignite_error Unit × σ) (r : reader)
    (pairs : List msgpack_object_kv) (s : σ) (hok : 0 ≤ r.m_move_res)
    (hval : r.m_current_val = .map pairs) :
    r.read_map_raw P h s = r.after_traversal P (call_in_order h pairs s) := by
  have hlt : ¬ r.m_move_res < 0 := not_lt.mpr hok
  have hloop := for_loop_eq_call_in_order pairs h
    (fun j s1 => h ((msgpack_object.map pairs).map_ptr j) s1)
    (by
      intro j s1 a hget
      simp [msgpack_object.map_ptr, msgpack_object.via_map, List.getD_eq_getElem?_getD, hget])
    pairs.length 0 s (by simp)
  rw [List.drop_zero] at hloop
  simp only [reader.read_map_raw, reader.read_map_size, reader.check_data_in_stream, hlt, hval,
    msgpack_object.type, msgpack_object.via_map, ne_eq, not_true_eq_false, if_false, hloop]
  rcases call_in_order h pairs s with ⟨res, s2⟩
  cases res <;> rfl

/-- On a reader staged (status ok) on an array, `read_array_raw` is the calls of the visitor on
(0, e_0), (1, e_1), ... in this order, up to the first that throws, and then the advance when
none threw. -/
theorem read_array_raw_eq_calls {σ : Type} (P : value_parse)
    (v : Nat → msgpack_object → σ → Except ignite_error Unit × σ) (r : reader)
    (elems : List msgpack_object) (s : σ) (hok : 0 ≤ r.m_move_res)
    (hval : r.m_current_val = .array elems) :
    r.read_array_raw P v s
      = r.after_traversal P (call_in_order (visit_indexed v) elems.enum s) := by
  have hlt : ¬ r.m_move_res < 0 := not_lt.mpr hok
  have hloop := for_loop_eq_call_in_order elems.enum (visit_indexed v)
    (fun j s1 => v j ((msgpack_object.array elems).array_ptr j) s1)
    (by
      intro j s1 a hget
      rw [List.getElem?_enum] at hget
      cases hq : elems[j]? with
      | none => rw [hq] at hget; simp at hget
      | some o =>
        rw [hq] at hget
        simp only [Option.map_some', Option.some.injEq] at hget
        subst hget
        simp [visit_indexed, msgpack_object.array_ptr, msgpack_object.via_array,
          List.getD_eq_getElem?_getD, hq])
    elems.length 0 s (by simp [List.enum_length])
  rw [List.drop_zero] at hloop
  simp only [reader.read_array_raw, reader.read_array_size, reader.check_data_in_stream, hlt,
    hval, unpack_array_size, if_false, hloop]
  rcases call_in_order (visit_indexed v) elems.enum s with ⟨res, s2⟩
  cases res <;> rfl

/-- On a reader staged (status ok) on a map, `read_map<K, V>` is the decoding and handling of the
pairs in encoded order, up to the first that throws, and then the advance when none threw. -/
theorem read_map_eq_calls {K V σ : Type} (P : value_parse)
    (uk : msgpack_object → Except ignite_error K) (uv : msgpack_object → Except ignite_error V)
    (h : K → V → σ → Except ignite_error Unit × σ) (r : reader)
    (pairs : List msgpack_object_kv) (s : σ) (hok : 0 ≤ r.m_move_res)
    (hval : r.m_current_val = .map pairs) :
    r.read_map P uk uv h s
      = r.after_traversal P (call_in_order (decode_and_handle uk uv h) pairs s) := by
  have hlt : ¬ r.m_move_res < 0 := not_lt.mpr hok
  have hloop := for_loop_eq_call_in_order pairs (decode_and_handle uk uv h)
    (read_map_body uk uv h (.map pairs))
    (by
      intro j s1 a hget
      have hptr : (msgpack_object.map pairs).map_ptr j = a := by
        simp [msgpack_object.map_ptr, msgpack_object.via_map, List.getD_eq_getElem?_getD, hget]
      simp only [read_map_body, decode_and_handle, hptr])
    pairs.length 0 s (by simp)
  rw [List.drop_zero] at hloop
  simp only [reader.read_map, reader.read_map_size, reader.check_data_in_stream, hlt, hval,
    msgpack_object.type, msgpack_object.via_map, ne_eq, not_true_eq_false, if_false, hloop]
  rcases call_in_order (decode_and_handle uk uv h) pairs s with ⟨res, s2⟩
  cases res <;> rfl

/-- On a reader staged (status ok) on an array, `read_array` is the decoding and collecting of
the elements in encoded order, up to the first that throws; it returns the collected vector and
advances when none threw. -/
theorem read_array_eq_calls {T : Type} (P : value_parse)
    (f : msgpack_object → Except ignite_error T) (r : reader) (elems : List msgpack_object)
    (hok : 0 ≤ r.m_move_res) (hval : r.m_current_val = .array elems) :
    r.read_array P f
      = (match call_in_order (decode_and_collect f) elems [] with
        | (.error e, _) => (.error e, r)
        | (.ok _, xs) => (.ok xs, r.next P)) := by
  have hlt : ¬ r.m_move_res < 0 := not_lt.mpr hok
  have hloop := for_loop_eq_call_in_order elems (decode_and_collect f)
    (read_array_body f (.array elems))
    (by
      intro j s1 a hget
      have hptr : (msgpack_object.array elems).array_ptr j = a := by
        simp [msgpack_object.array_ptr, msgpack_object.via_array, List.getD_eq_getElem?_getD,
          hget]
      simp only [read_array_body, decode_and_collect, hptr])
    elems.length 0 [] (by simp)
  rw [List.drop_zero] at hloop
  simp only [reader.read_array, reader.read_array_size, reader.check_data_in_stream, hlt, hval,
    unpack_array_size, if_false, hloop]

/-- Whatever the reader state and the callback, a traversal that throws leaves the reader as it
was. -/
theorem traversal_frame (P : value_parse) (r : reader) (e : ignite_error) :
    (∀ (T : Type) (f : msgpack_object → Except ignite_error T),
        (r.read_array P f).1 = .error e → (r.read_array P f).2 = r) ∧
    (∀ (σ : Type) (v : Nat → msgpack_object → σ → Except ignite_error Unit × σ) (s : σ),
        (r.read_array_raw P v s).1 = .error e → (r.read_array_raw P v s).2.1 = r) ∧
    (∀ (σ : Type) (h : msgpack_object_kv → σ → Except ignite_error Unit × σ) (s : σ),
        (r.read_map_raw P h s).1 = .error e → (r.read_map_raw P h s).2.1 = r) ∧
    (∀ (K V σ : Type) (uk : msgpack_object → Except ignite_error K)
        (uv : msgpack_object → Except ignite_error V)
        (h : K → V → σ → Except ignite_error Unit × σ) (s : σ),
        (r.read_map P uk uv h s).1 = .error e → (r.read_map P uk uv h s).2.1 = r) := by
  refine ⟨?_, ?_, ?_, ?_⟩
  · intro T f
    simp only [reader.read_array, reader.read_array_size]
    cases r.check_data_in_stream with
    | error e1 => intro _; rfl
    | ok _ =>
      cases unpack_array_size r.m_current_val with
      | error e1 => intro _; rfl
      | ok size =>
        simp only []
        rcases for_loop (read_array_body f r.m_current_val) size 0 [] with ⟨res, xs⟩
        cases res with
        | error e1 => intro _; rfl
        | ok u => intro h; simp at h
  · intro σ v s
    simp only [reader.read_array_raw, reader.read_array_size]
    cases r.check_data_in_stream with
    | error e1 => intro _; rfl
    | ok _ =>
      cases unpack_array_size r.m_current_val with
      | error e1 => intro _; rfl
      | ok size =>
        simp only []
        rcases for_loop (fun i s1 => v i (r.m_current_val.array_ptr i) s1) size 0 s
          with ⟨res, s2⟩
        cases res with
        | error e1 => intro _; rfl
        | ok u => intro h; simp at h
  · intro σ hd s
    simp only [reader.read_map_raw, reader.read_map_size]
    cases r.check_data_in_stream with
    | error e1 => intro _; rfl
    | ok _ =>
      by_cases hty : r.m_current_val.type = .MSGPACK_OBJECT_MAP
      · simp only [hty, ne_eq, not_true_eq_false, if_false]
        rcases for_loop (fun i s1 => hd (r.m_current_val.map_ptr i) s1)
          r.m_current_val.via_map.length 0 s with ⟨res, s2⟩
        cases res with
        | error e1 => intro _; rfl
        | ok u => intro h; simp at h
      · simp [hty]
  · intro K V σ uk uv hd s
    simp only [reader.read_map, reader.read_map_size]
    cases r.check_data_in_stream with
    | error e1 => intro _; rfl
    | ok _ =>
      by_cases hty : r.m_current_val.type = .MSGPACK_OBJECT_MAP
      · simp only [hty, ne_eq, not_true_eq_false, if_false]
        rcases for_loop (read_map_body uk uv hd r.m_current_val)
          r.m_current_val.via_map.length 0 s with ⟨res, s2⟩
        cases res with
        | error e1 => intro _; rfl
        | ok u => intro h; simp at h
      · simp [hty]

/-- C16: a traversal that throws does not leave the cursor mid-aggregate. (1) For every reader
state and every decoder, visitor or handler, when `read_array`, `read_array_raw`, `read_map_raw`
or `read_map` throws, the reader is exactly as before the call. (2) On a reader staged (status
ok) on an array or map, each of the four is the calls on the elements or pairs in encoded order,
each in the captured state the call before left, up to the first that throws, followed by the
one advance only when none threw. (3) So when the calls on the indices before `i` returned,
leading to the captured state `s_i`, and the decoder, a key or value decode, the visitor or the
handler throws at `i` in that state, the call throws that error, the reader is as before and the
captured state is `s_i`, or what the throwing visitor or handler made of it: no index after `i`
is visited. (4) And whenever one of them throws on a staged aggregate, there is such an
index `i`. -/
theorem failed_traversal_keeps_cursor :
    (∀ (P : value_parse) (r : reader) (e : ignite_error),
      (∀ (T : Type) (f : msgpack_object → Except ignite_error T),
          (r.read_array P f).1 = .error e → (r.read_array P f).2 = r) ∧
      (∀ (σ : Type) (v : Nat → msgpack_object → σ → Except ignite_error Unit × σ) (s : σ),
          (r.read_array_raw P v s).1 = .error e → (r.read_array_raw P v s).2.1 = r) ∧
      (∀ (σ : Type) (h : msgpack_object_kv → σ → Except ignite_error Unit × σ) (s : σ),
          (r.read_map_raw P h s).1 = .error e → (r.read_map_raw P h s).2.1 = r) ∧
      (∀ (K V σ : Type) (uk : msgpack_object → Except ignite_error K)
          (uv : msgpack_object → Except ignite_error V)
          (h : K → V → σ → Except ignite_error Unit × σ) (s : σ),
          (r.read_map P uk uv h s).1 = .error e → (r.read_map P uk uv h s).2.1 = r)) ∧
    (∀ (P : value_parse) (r : reader) (elems : List msgpack_object), 0 ≤ r.m_move_res →
      r.m_current_val = .array elems →
      (∀ (T : Type) (f : msgpack_object → Except ignite_error T),
          r.read_array P f
            = (match call_in_order (decode_and_collect f) elems [] with
              | (.error e, _) => (.error e, r)
              | (.ok _, xs) => (.ok xs, r.next P))) ∧
      (∀ (σ : Type) (v : Nat → msgpack_object → σ → Except ignite_error Unit × σ) (s : σ),
          r.read_array_raw P v s
            = r.after_traversal P (call_in_order (visit_indexed v) elems.enum s)) ∧
      (∀ (T : Type) (f : msgpack_object → Except ignite_error T) (i : Nat)
          (hi : i < elems.length) (xs : List T) (e : ignite_error),
          call_in_order (decode_and_collect f) (elems.take i) [] = (.ok (), xs) →
          f elems[i] = .error e → r.read_array P f = (.error e, r)) ∧
      (∀ (σ : Type) (v : Nat → msgpack_object → σ → Except ignite_error Unit × σ) (s s_i : σ)
          (i : Nat) (hi : i < elems.length) (e : ignite_error),
          call_in_order (visit_indexed v) (elems.enum.take i) s = (.ok (), s_i) →
          (v i elems[i] s_i).1 = .error e →
          r.read_array_raw P v s = (.error e, r, (v i elems[i] s_i).2)) ∧
      (∀ (T : Type) (f : msgpack_object → Except ignite_error T) (e : ignite_error),
          (r.read_array P f).1 = .error e →
          ∃ (i : Nat) (hi : i < elems.length) (xs : List T),
            call_in_order (decode_and_collect f) (elems.take i) [] = (.ok (), xs) ∧
            f elems[i] = .error e) ∧
      (∀ (σ : Type) (v : Nat → msgpack_object → σ → Except ignite_error Unit × σ) (s : σ)
          (e : ignite_error), (r.read_array_raw P v s).1 = .error e →
          ∃ (i : Nat) (hi : i < elems.length) (s_i : σ),
            call_in_order (visit_indexed v) (elems.enum.take i) s = (.ok (), s_i) ∧
            (v i elems[i] s_i).1 = .error e ∧
            r.read_array_raw P v s = (.error e, r, (v i elems[i] s_i).2))) ∧
    (∀ (P : value_parse) (r : reader) (pairs : List msgpack_object_kv), 0 ≤ r.m_move_res →
      r.m_current_val = .map pairs →
      (∀ (σ : Type) (h : msgpack_object_kv → σ → Except ignite_error Unit × σ) (s : σ),
          r.read_map_raw P h s = r.after_traversal P (call_in_order h pairs s)) ∧
      (∀ (K V σ : Type) (uk : msgpack_object → Except ignite_error K)
          (uv : msgpack_object → Except ignite_error V)
          (h : K → V → σ → Except ignite_error Unit × σ) (s : σ),
          r.read_map P uk uv h s
            = r.after_traversal P (call_in_order (decode_and_handle uk uv h) pairs s)) ∧
      (∀ (σ : Type) (h : msgpack_object_kv → σ → Except ignite_error Unit × σ) (s s_i : σ)
          (i : Nat) (hi : i < pairs.length) (e : ignite_error),
          call_in_order h (pairs.take i) s = (.ok (), s_i) →
          (h pairs[i] s_i).1 = .error e →
          r.read_map_raw P h s = (.error e, r, (h pairs[i] s_i).2)) ∧
      (∀ (K V σ : Type) (uk : msgpack_object → Except ignite_error K)
          (uv : msgpack_object → Except ignite_error V)
          (h : K → V → σ → Except ignite_error Unit × σ) (s s_i : σ) (i : Nat)
          (hi : i < pairs.length) (e : ignite_error),
          call_in_order (decode_and_handle uk uv h) (pairs.take i) s = (.ok (), s_i) →
          (uk pairs[i].key = .error e → r.read_map P uk uv h s = (.error e, r, s_i)) ∧
          (∀ k : K, uk pairs[i].key = .ok k → uv pairs[i].val = .error e →
            r.read_map P uk uv h s = (.error e, r, s_i)) ∧
          (∀ (k : K) (x : V), uk pairs[i].key = .ok k → uv pairs[i].val = .ok x →
            (h k x s_i).1 = .error e →
            r.read_map P uk uv h s = (.error e, r, (h k x s_i).2))) ∧
      (∀ (σ : Type) (h : msgpack_object_kv → σ → Except ignite_error Unit × σ) (s : σ)
          (e : ignite_error), (r.read_map_raw P h s).1 = .error e →
          ∃ (i : Nat) (hi : i < pairs.length) (s_i : σ),
            call_in_order h (pairs.take i) s = (.ok (), s_i) ∧
            (h pairs[i] s_i).1 = .error e ∧
            r.read_map_raw P h s = (.error e, r, (h pairs[i] s_i).2)) ∧
      (∀ (K V σ : Type) (uk : msgpack_object → Except ignite_error K)
          (uv : msgpack_object → Except ignite_error V)
          (h : K → V → σ → Except ignite_error Unit × σ) (s : σ) (e : ignite_error),
          (r.read_map P uk uv h s).1 = .error e →
          ∃ (i : Nat) (hi : i < pairs.length) (s_i : σ),
            call_in_order (decode_and_handle uk uv h) (pairs.take i) s = (.ok (), s_i) ∧
            (decode_and_handle uk uv h pairs[i] s_i).1 = .error e ∧
            r.read_map P uk uv h s
              = (.error e, r, (decode_and_handle uk uv h pairs[i] s_i).2))) := by
  refine ⟨traversal_frame, ?_, ?_⟩
  · intro P r elems hok hval
    refine ⟨?_, ?_, ?_, ?_, ?_, ?_⟩
    · intro T f
      exact read_array_eq_calls P f r elems hok hval
    · intro σ v s
      exact read_array_raw_eq_calls P v r elems s hok hval
    · intro T f i hi xs e hpre hfail
      rw [read_array_eq_calls P f r elems hok hval,
        call_in_order_fails_at (decode_and_collect f) elems i hi [] xs xs e hpre
          (by simp [decode_and_collect, hfail])]
    · intro σ v s s_i i hi e hpre hfail
      have hi2 : i < elems.enum.length := by rw [List.enum_length]; exact hi
      rw [read_array_raw_eq_calls P v r elems s hok hval,
        call_in_order_fails_at (visit_indexed v) elems.enum i hi2 s s_i
          (v i elems[i] s_i).2 e hpre
          (by
            rw [List.getElem_enum elems i hi2]
            exact Prod.ext hfail rfl)]
      rfl
    · intro T f e hthrow
      rw [read_array_eq_calls P f r elems hok hval] at hthrow
      rcases hres : call_in_order (decode_and_collect f) elems [] with ⟨res, xs2⟩
      rw [hres] at hthrow
      cases res with
      | ok u => simp at hthrow
      | error e1 =>
        simp only [Except.error.injEq] at hthrow
        subst hthrow
        obtain ⟨i, hi, xs, hpre, hfail⟩ :=
          call_in_order_error_index (decode_and_collect f) elems [] xs2 e1 hres
        refine ⟨i, hi, xs, hpre, ?_⟩
        simp only [decode_and_collect] at hfail
        cases hf : f elems[i] with
        | ok x => rw [hf] at hfail; simp at hfail
        | error e2 =>
          rw [hf] at hfail
          simp only [Prod.mk.injEq, Except.error.injEq] at hfail
          rw [hfail.1]
    · intro σ v s e hthrow
      have heq := read_array_raw_eq_calls P v r elems s hok hval
      rw [heq] at hthrow
      rcases hres : call_in_order (visit_indexed v) elems.enum s with ⟨res, s2⟩
      rw [hres] at hthrow
      cases res with
      | ok u => simp [reader.after_traversal] at hthrow
      | error e1 =>
        simp only [reader.after_traversal, Except.error.injEq] at hthrow
        subst hthrow
        obtain ⟨i, hi2, s_i, hpre, hfail⟩ :=
          call_in_order_error_index (visit_indexed v) elems.enum s s2 e1 hres
        have hi : i < elems.length := by rw [List.enum_length] at hi2; exact hi2
        rw [List.getElem_enum elems i hi2] at hfail
        simp only [visit_indexed] at hfail
        refine ⟨i, hi, s_i, hpre, by rw [hfail], ?_⟩
        rw [heq, hres, hfail]
        rfl
  · intro P r pairs hok hval
    refine ⟨?_, ?_, ?_, ?_, ?_, ?_⟩
    · intro σ h s
      exact read_map_raw_eq_calls P h r pairs s hok hval
    · intro K V σ uk uv h s
      exact read_map_eq_calls P uk uv h r pairs s hok hval
    · intro σ h s s_i i hi e hpre hfail
      rw [read_map_raw_eq_calls P h r pairs s hok hval,
        call_in_order_fails_at h pairs i hi s s_i (h pairs[i] s_i).2 e hpre
          (Prod.ext hfail rfl)]
      rfl
    · intro K V σ uk uv h s s_i i hi e hpre
      have hgo : ∀ s2 : σ, decode_and_handle uk uv h pairs[i] s_i = (.error e, s2) →
          r.read_map P uk uv h s = (.error e, r, s2) := by
        intro s2 hfail
        rw [read_map_eq_calls P uk uv h r pairs s hok hval,
          call_in_order_fails_at (decode_and_handle uk uv h) pairs i hi s s_i s2 e hpre hfail]
        rfl
      refine ⟨?_, ?_, ?_⟩
      · intro hk
        exact hgo s_i (by simp [decode_and_handle, hk])
      · intro k hk hv
        exact hgo s_i (by simp [decode_and_handle, hk, hv])
      · intro k x hk hv hh
        exact hgo _ (by
          simp only [decode_and_handle, hk, hv]
          exact Prod.ext hh rfl)
    · intro σ h s e hthrow
      have heq := read_map_raw_eq_calls P h r pairs s hok hval
      rw [heq] at hthrow
      rcases hres : call_in_order h pairs s with ⟨res, s2⟩
      rw [hres] at hthrow
      cases res with
      | ok u => simp [reader.after_traversal] at hthrow
      | error e1 =>
        simp only [reader.after_traversal, Except.error.injEq] at hthrow
        subst hthrow
        obtain ⟨i, hi, s_i, hpre, hfail⟩ := call_in_order_error_index h pairs s s2 e1 hres
        refine ⟨i, hi, s_i, hpre, by rw [hfail], ?_⟩
        rw [heq, hres, hfail]
        rfl
    · intro K V σ uk uv h s e hthrow
      have heq := read_map_eq_calls P uk uv h r pairs s hok hval
      rw [heq] at hthrow
      rcases hres : call_in_order (decode_and_handle uk uv h) pairs s with ⟨res, s2⟩
      rw [hres] at hthrow
      cases res with
      | ok u => simp [reader.after_traversal] at hthrow
      | error e1 =>
        simp only [reader.after_traversal, Except.error.injEq] at hthrow
        subst hthrow
        obtain ⟨i, hi, s_i, hpre, hfail⟩ :=
          call_in_order_error_index (decode_and_handle uk uv h) pairs s s2 e1 hres
        refine ⟨i, hi, s_i, hpre, by rw [hfail], ?_⟩
        rw [heq, hres, hfail]
        rfl

/-- C16, on the staged array [1, "x", 2] with the int32 decoder, in `read_array` and as the
collecting visitor of `read_array_raw` (an element decides the throw, at index 1, after the
value 1 was collected); on the staged map 1 ↦ 10, 1 ↦ 20 with a handler that rejects a key it
has seen (the captured state decides the throw, at index 1, after (1, 10) was recorded); and on
the staged record with a raw handler that throws on the integer value (index 2, after the first
two pairs were recorded); and on the staged array [3, 1, 2] with a visitor that throws at
index 1. -/
theorem failed_traversal_keeps_cursor_witness :
    (reader_on_mixed_array.read_array sample_parse (unpack_object_int 32)).2
      = reader_on_mixed_array ∧
    reader_on_mixed_array.read_array sample_parse (unpack_object_int 32)
      = (.error WrongType, reader_on_mixed_array) ∧
    reader_on_mixed_array.read_array_raw sample_parse
        (collect_element (unpack_object_int 32)) []
      = (.error WrongType, reader_on_mixed_array, [1]) ∧
    reader_on_repeated_key.read_map sample_parse (unpack_object_int 32) (unpack_object_int 32)
        record_pair_once []
      = (.error HandlerFailure, reader_on_repeated_key, [(1, 10)]) ∧
    reader_on_record.read_map_raw sample_parse
        (record_kv_unless .MSGPACK_OBJECT_INTEGER HandlerFailure) []
      = (.error HandlerFailure, reader_on_record, record_pairs.take 2) ∧
    reader_on_array_3_1_2.read_array_raw sample_parse
        (record_element_until 1 HandlerFailure) []
      = (.error HandlerFailure, reader_on_array_3_1_2, [(0, .integer 8 false 3)]) :=
  ⟨(failed_traversal_keeps_cursor.1 sample_parse reader_on_mixed_array WrongType).1 Int
      (unpack_object_int 32) rfl,
   (failed_traversal_keeps_cursor.2.1 sample_parse reader_on_mixed_array
      [.integer 8 false 1, .str [0x78], .integer 8 false 2] (by decide) rfl).2.2.1 Int
      (unpack_object_int 32) 1 (by decide) [1] WrongType rfl rfl,
   (failed_traversal_keeps_cursor.2.1 sample_parse reader_on_mixed_array
      [.integer 8 false 1, .str [0x78], .integer 8 false 2] (by decide) rfl).2.2.2.1 _
      (collect_element (unpack_object_int 32)) [] [1] 1 (by decide) WrongType rfl rfl,
   ((failed_traversal_keeps_cursor.2.2 sample_parse reader_on_repeated_key
      [.mk (.integer 8 false 1) (.integer 8 false 10),
       .mk (.integer 8 false 1) (.integer 8 false 20)] (by decide) rfl).2.2.2.1 Int Int _
      (unpack_object_int 32) (unpack_object_int 32) record_pair_once [] [(1, 10)] 1
      (by decide) HandlerFailure rfl).2.2 1 20 rfl rfl rfl,
   (failed_traversal_keeps_cursor.2.2 sample_parse reader_on_record record_pairs
      (by decide) rfl).2.2.1 _ (record_kv_unless .MSGPACK_OBJECT_INTEGER HandlerFailure) []
      (record_pairs.take 2) 2 (by decide) HandlerFailure rfl rfl,
   (failed_traversal_keeps_cursor.2.1 sample_parse reader_on_array_3_1_2
      [.integer 8 false 3, .integer 8 false 1, .integer 8 false 2] (by decide) rfl).2.2.2.1 _
      (record_element_until 1 HandlerFailure) [] [(0, .integer 8 false 3)] 1 (by decide)
      HandlerFailure rfl rfl⟩

/-! ### The raw array traversal -/

/-- C17: for a reader staged (status ok) on an array of `n` elements and a visitor that does not
throw, `read_array_raw` runs the visitor on (0, e_0), (1, e_1), ..., (n - 1, e_{n-1}), in this
order, exactly `n` times, and advances once; and for every reader state and every decoder
`unpack_func`, `read_array_raw` with the visitor that collects `unpack_func(e)` does what
`read_array(unpack_func)` does: the same collected sequence when it returns, the same error when
it throws, and the same reader state afterwards. -/
theorem read_array_raw_same_traversal :
    (∀ (σ : Type) (P : value_parse)
        (v : Nat → msgpack_object → σ → Except ignite_error Unit × σ) (r : reader)
        (elems : List msgpack_object) (s : σ), 0 ≤ r.m_move_res →
        r.m_current_val = .array elems → (∀ i o s1, (v i o s1).1 = .ok ()) →
        r.read_array_raw P v s
          = (.ok (), r.next P, elems.enum.foldl (fun s1 p => (v p.1 p.2 s1).2) s)) ∧
    (∀ (P : value_parse) (r : reader) (elems : List msgpack_object), 0 ≤ r.m_move_res →
        r.m_current_val = .array elems →
        r.read_array_raw P record_element [] = (.ok (), r.next P, elems.enum) ∧
        elems.enum.length = elems.length ∧
        ∀ (i : Nat) (hi : i < elems.length), elems.enum[i]? = some (i, elems[i])) ∧
    (∀ (T : Type) (P : value_parse) (unpack_func : msgpack_object → Except ignite_error T)
        (r : reader),
        (r.read_array P unpack_func).1
          = Except.map (fun _ => (r.read_array_raw P (collect_element unpack_func) []).2.2)
              (r.read_array_raw P (collect_element unpack_func) []).1 ∧
        (r.read_array P unpack_func).2
          = (r.read_array_raw P (collect_element unpack_func) []).2.1) := by
  refine ⟨?_, ?_, ?_⟩
  · intro σ P v r elems s hok hval hnf
    exact read_array_raw_trace P v r elems s hok hval hnf
  · intro P r elems hok hval
    refine ⟨?_, List.enum_length, ?_⟩
    · rw [read_array_raw_trace P record_element r elems [] hok hval (fun _ _ _ => rfl)]
      simp only [record_element, Prod.mk.eta]
      rw [foldl_emplace_back]
      simp
    · intro i hi
      rw [List.getElem?_enum, List.getElem?_eq_getElem hi]
      rfl
  · intro T P f r
    have hbody : (fun i s1 => collect_element f i (r.m_current_val.array_ptr i) s1)
        = read_array_body f r.m_current_val := by
      funext i s1
      rfl
    simp only [reader.read_array, reader.read_array_raw, reader.read_array_size]
    cases r.check_data_in_stream with
    | error e => exact ⟨rfl, rfl⟩
    | ok _ =>
      cases unpack_array_size r.m_current_val with
      | error e => exact ⟨rfl, rfl⟩
      | ok size =>
        simp only [hbody]
        rcases for_loop (read_array_body f r.m_current_val) size 0 [] with ⟨res, xs⟩
        cases res with
        | error e => exact ⟨rfl, rfl⟩
        | ok u => exact ⟨rfl, rfl⟩

/-- C17, on the staged array [3, 1, 2] with the recording visitor. -/
theorem read_array_raw_same_traversal_witness :
    reader_on_array_3_1_2.read_array_raw sample_parse record_element []
      = (.ok (), reader_on_array_3_1_2.next sample_parse,
          [(0, .integer 8 false 3), (1, .integer 8 false 1), (2, .integer 8 false 2)]) :=
  (read_array_raw_same_traversal.2.1 sample_parse reader_on_array_3_1_2
    [.integer 8 false 3, .integer 8 false 1, .integer 8 false 2] (by decide) rfl).1

/-! ### `read_binary` on a reader without a staged value -/

/-- On a reader whose last move failed and whose next offset is its offset, as after a failed
staging or at the end of the buffer, an operation keeps the failed status, the position, the
next offset and the stale current value: nothing is staged again. -/
theorem failed_status_is_kept (P : value_parse) (r r1 : reader) (h : r.m_move_res < 0)
    (hoff : r.m_offset_next = r.m_offset) (hstep : reader_op_step P r r1) :
    r1.m_move_res < 0 ∧ r1.position = r.position ∧ r1.m_offset_next = r1.m_offset ∧
    r1.m_current_val = r.m_current_val := by
  rcases reader_op_step_cases P r r1 hstep with heq | heq
  · rw [heq]; exact ⟨h, rfl, hoff, rfl⟩
  · rw [heq]
    by_cases hend : r.m_offset = r.m_buffer.length
    · simp [reader.next, reader.position, hoff, hend, status.code]
    · simp [reader.next, reader.position, hoff, hend, h]

/-- C11 at its failing input: on the reader constructed over the buffer 0xa5 0x61 (a string of
five bytes cut after the first) staging has failed (`m_move_res < 0`) and `read_object<int32_t>`
throws "No more data in stream", but `read_binary` throws another error, the TypeMismatch of
`unpack_binary`; and on the buffer 0xa1 0x61 0xa5 0x61, once the string "a" has been read and the
staging of the cut string has failed, `read_binary` does not throw at all: it returns the bytes
of the stale string. -/
theorem read_binary_after_failed_staging :
    (reader.construct sample_parse [0xa5, 0x61]).m_move_res < 0 ∧
    ((reader.construct sample_parse [0xa5, 0x61]).read_object sample_parse
        (unpack_object_int 32)).1 = .error StreamExhausted ∧
    ((reader.construct sample_parse [0xa5, 0x61]).read_binary sample_parse).1
      = .error NotABinary ∧
    NotABinary ≠ StreamExhausted ∧
    ((reader.construct sample_parse [0xa1, 0x61, 0xa5, 0x61]).read_object sample_parse
        (unpack_object_string ascii_text)).1 = .ok "a" ∧
    ((reader.construct sample_parse [0xa1, 0x61, 0xa5, 0x61]).read_object sample_parse
        (unpack_object_string ascii_text)).2.m_move_res < 0 ∧
    (((reader.construct sample_parse [0xa1, 0x61, 0xa5, 0x61]).read_object sample_parse
        (unpack_object_string ascii_text)).2.read_binary sample_parse).1 = .ok [0x61] := by
  refine ⟨by decide, rfl, rfl, by decide, rfl, by decide, rfl⟩

/-- C15 at its failing input: on the reader constructed over the empty buffer (status not ok)
`read_binary` throws the TypeMismatch of `unpack_binary` and not "No more data in stream"; on the
reader over the buffer 0xa1 0x61, once its only value has been skipped (status not ok, the stale
value is the string), `read_binary` returns the bytes of the stale string. -/
theorem read_binary_without_staged_value :
    (reader.construct sample_parse []).m_move_res < 0 ∧
    ((reader.construct sample_parse []).read_binary sample_parse).1 = .error NotABinary ∧
    NotABinary.cls = .TypeMismatch ∧
    NotABinary ≠ StreamExhausted ∧
    ((reader.construct sample_parse [0xa1, 0x61]).skip sample_parse).2.m_move_res < 0 ∧
    ((reader.construct sample_parse [0xa1, 0x61]).skip sample_parse).2.position = 2 ∧
    (((reader.construct sample_parse [0xa1, 0x61]).skip sample_parse).2.read_binary
        sample_parse).1 = .ok [0x61] ∧
    (((reader.construct sample_parse [0xa1, 0x61]).skip sample_parse).2.read_object
        sample_parse (unpack_object_string ascii_text)).1 = .error StreamExhausted := by
  refine ⟨by decide, rfl, rfl, by decide, by decide, rfl, rfl, rfl⟩

end ignite.protocol
